import Mathlib

/-!
Verification development for the Meta runtime schema-validation engine.

The Python sources (schema.py, schema_validator.py, helpers.py, meta_core.py,
meta_base.py, meta.py) are shallowly embedded below.  Python values become
`PyVal`, schema expressions become `SE`, wrapped nodes become `Node`,
exceptions become `PyErr` carried in `Except`.  Each definition mirrors one
source function; comments cite the file and the line range it embeds.
Lists inside the three value-like types are represented by mutually defined
list types (`VList`, `SEList`, ...) so that all recursions are structural.

Modelling conventions, fixed once here:
* CPython `set` iteration order is hash-dependent; the model fixes insertion
  order.  Concrete statements below only exercise order-insensitive cases
  (singleton sets, or sets the source itself sorts before use).
* Floats that arise in these claims are integral (`float()` defaults), so a
  float carries its integral value.
* Recursions of the validator that are not structural in the Python source
  (union-branch resolution re-enters full validation) take an explicit fuel
  argument; `0` fuel yields the distinguished `PyErr.fuelOut`.  The call
  depth of the validator is bounded by the size of the schema, never by the
  data, so any fuel above that bound gives the Python behaviour; statements
  below either hold for every positive fuel or supply an amply sufficient
  constant.
-/

set_option maxRecDepth 8000

namespace MetaPy

/-- The Python classes the engine dispatches on as schema atoms:
`bool`, `int`, `float`, `str`, `type(None)`. -/
inductive PyTy where
  | bool
  | int
  | float
  | str
  | noneT
deriving DecidableEq, Repr

mutual

/-- Python runtime values handled by the engine: the five scalar kinds and
the four container kinds (`dict` as an ordered association list, matching
CPython insertion order; `set` as an insertion-ordered list, see header). -/
inductive PyVal where
  | none
  | bool (b : Bool)
  | int (n : Int)
  | float (n : Int)
  | str (s : String)
  | list (xs : VList)
  | tuple (xs : VList)
  | set (xs : VList)
  | dict (xs : VPairs)

/-- A list of Python values. -/
inductive VList where
  | nil
  | cons (head : PyVal) (tail : VList)

/-- An ordered association list of Python key/value pairs. -/
inductive VPairs where
  | nil
  | cons (key val : PyVal) (tail : VPairs)

end

deriving instance DecidableEq for PyVal, VList, VPairs

mutual

/-- Schema expressions: everything `Schema._normalize_schema` (schema.py)
can receive or produce.  `union` covers both `typing.Union[...]` and the
`X | Y` form (schema.py lines 32-36 treat them identically); `dictOf`,
`listOf`, `setOf`, `tupleOf`, `tupleVar` are the parametric `typing`
aliases (`tupleVar` is `Tuple[T, ...]`); `pdict`/`plist`/`pset`/`ptuple`/
`ptupleVar` are plain Python containers used as schemas (the normal forms;
`ptupleVar` is the pair `(T, Ellipsis)`); `slit`/`ilit`/`blit` are literal
values used as schema expressions or explicit map keys; `ty` is a bare
class. -/
inductive SE where
  | any
  | ty (t : PyTy)
  | slit (s : String)
  | ilit (n : Int)
  | blit (b : Bool)
  | union (args : SEList)
  | dictOf (k v : SE)
  | listOf (t : SE)
  | setOf (t : SE)
  | tupleOf (args : SEList)
  | tupleVar (t : SE)
  | pdict (fields : SEFields)
  | plist (items : SEList)
  | pset (items : SEList)
  | ptuple (items : SEList)
  | ptupleVar (t : SE)

/-- A list of schema expressions. -/
inductive SEList where
  | nil
  | cons (head : SE) (tail : SEList)

/-- An ordered association list of schema-key / schema-value pairs
(a plain Python dict used as a schema). -/
inductive SEFields where
  | nil
  | cons (key val : SE) (tail : SEFields)

end

deriving instance DecidableEq for SE, SEList, SEFields

mutual

/-- A wrapped node (`MetaDict`, `MetaList`, `MetaSet`, `MetaTuple`,
`MetaStr`, `MetaInt`, `MetaFloat`, `MetaBool`, `MetaNone` of meta_core.py /
meta_base.py).  Keys of a `MetaDict` are plain Python values (the wrapper
never wraps keys); children are nodes.  The schema attached to each node is
tracked at the call sites that need it rather than stored in the node. -/
inductive Node where
  | mnone
  | mbool (b : Bool)
  | mint (n : Int)
  | mfloat (n : Int)
  | mstr (s : String)
  | mlist (xs : NList)
  | mtuple (xs : NList)
  | mset (xs : NList)
  | mdict (xs : NEntries)

/-- A list of nodes. -/
inductive NList where
  | nil
  | cons (head : Node) (tail : NList)

/-- Entries of a map node: raw key, wrapped value. -/
inductive NEntries where
  | nil
  | cons (key : PyVal) (val : Node) (tail : NEntries)

end

deriving instance DecidableEq for Node, NList, NEntries

/-- Python exceptions distinguished by the engine.  `resolve_union_branch`
catches only `TypeError`, so the class of an exception is semantically
relevant.  `fuelOut` is the model-internal out-of-fuel marker. -/
inductive PyErr where
  | typeError (msg : String)
  | valueError (msg : String)
  | attributeError (msg : String)
  | indexError (msg : String)
  | fuelOut
deriving DecidableEq, Repr

/-- Converters from ordinary Lean lists, used to write concrete statements
readably; definitionally transparent. -/
def VList.ofList : List PyVal → VList
  | [] => .nil
  | x :: xs => .cons x (VList.ofList xs)

def VPairs.ofList : List (PyVal × PyVal) → VPairs
  | [] => .nil
  | (k, v) :: xs => .cons k v (VPairs.ofList xs)

def SEList.ofList : List SE → SEList
  | [] => .nil
  | x :: xs => .cons x (SEList.ofList xs)

def SEFields.ofList : List (SE × SE) → SEFields
  | [] => .nil
  | (k, v) :: xs => .cons k v (SEFields.ofList xs)

def NList.ofList : List Node → NList
  | [] => .nil
  | x :: xs => .cons x (NList.ofList xs)

def NEntries.ofList : List (PyVal × Node) → NEntries
  | [] => .nil
  | (k, v) :: xs => .cons k v (NEntries.ofList xs)

/-- `isinstance(v, t)` for the scalar classes.  In Python `bool` is a
subclass of `int`, so a boolean is an instance of `int` but not
conversely. -/
def isinstanceTy (v : PyVal) (t : PyTy) : Bool :=
  match v, t with
  | .bool _, .bool => true
  | .bool _, .int => true
  | .int _, .int => true
  | .float _, .float => true
  | .str _, .str => true
  | .none, .noneT => true
  | _, _ => false

mutual

/-- Python `==` on values.  Booleans compare equal to the integers 0/1 and
an integral float compares equal to the same integer, as in CPython; a list
never equals a tuple.  Python set equality is order-insensitive, but `==`
is only consulted on hashable values (dictionary keys), where sets cannot
occur, so the container fallbacks are elementwise. -/
def pyEqB : PyVal → PyVal → Bool
  | .none, .none => true
  | .bool a, .bool b => a == b
  | .bool a, .int n => (if a then (1 : Int) else 0) == n
  | .int n, .bool a => n == (if a then (1 : Int) else 0)
  | .int a, .int b => a == b
  | .float a, .float b => a == b
  | .float a, .int b => a == b
  | .int a, .float b => a == b
  | .bool a, .float n => (if a then (1 : Int) else 0) == n
  | .float n, .bool a => n == (if a then (1 : Int) else 0)
  | .str a, .str b => a == b
  | .tuple xs, .tuple ys => pyEqVL xs ys
  | .list xs, .list ys => pyEqVL xs ys
  | .set xs, .set ys => pyEqVL xs ys
  | .dict xs, .dict ys => pyEqVP xs ys
  | _, _ => false

def pyEqVL : VList → VList → Bool
  | .nil, .nil => true
  | .cons x xs, .cons y ys => pyEqB x y && pyEqVL xs ys
  | _, _ => false

def pyEqVP : VPairs → VPairs → Bool
  | .nil, .nil => true
  | .cons k v xs, .cons k2 v2 ys => pyEqB k k2 && pyEqB v v2 && pyEqVP xs ys
  | _, _ => false

end

/-- Membership of a schema expression in a schema list by Python `==`
(schema objects compare structurally), modelling Python set containment
during set construction. -/
def seMem (x : SE) : SEList → Bool
  | .nil => false
  | .cons y ys => x == y || seMem x ys

/-- Model of building a Python `set` from a list of schema expressions:
duplicates are dropped keeping the first occurrence; iteration order is
modelled as insertion order (see the header note). -/
def dedupSEGo : SEList → SEList → SEList
  | _, .nil => .nil
  | seen, .cons x xs =>
      if seMem x seen then dedupSEGo seen xs
      else .cons x (dedupSEGo (.cons x seen) xs)

def dedupSE (l : SEList) : SEList := dedupSEGo .nil l

/-- `t.__name__` for the scalar classes. -/
def tyName : PyTy → String
  | .bool => "bool"
  | .int => "int"
  | .float => "float"
  | .str => "str"
  | .noneT => "NoneType"

mutual

/-- `str(x)` on schema objects, used by schema.py line 64 only as a sort
key.  CPython renders a class as the class marker followed by its name
(quotes are omitted here, which does not change the relative order of any
two such strings); other forms are given stable renderings.  Only classes
and tuples of classes occur in real hashable key sets. -/
def seStr : SE → String
  | .any => "typing.Any"
  | .ty t => "<class " ++ tyName t ++ ">"
  | .slit s => s
  | .ilit n => toString n
  | .blit b => toString b
  | .union args => "typing.Union[" ++ seStrL args ++ "]"
  | .dictOf k v => "typing.Dict[" ++ seStr k ++ ", " ++ seStr v ++ "]"
  | .listOf t => "typing.List[" ++ seStr t ++ "]"
  | .setOf t => "typing.Set[" ++ seStr t ++ "]"
  | .tupleOf args => "typing.Tuple[" ++ seStrL args ++ "]"
  | .tupleVar t => "typing.Tuple[" ++ seStr t ++ ", ...]"
  | .pdict fields => "dict:" ++ seStrF fields
  | .plist items => "[" ++ seStrL items ++ "]"
  | .pset items => "set:" ++ seStrL items
  | .ptuple items => "(" ++ seStrL items ++ ")"
  | .ptupleVar t => "(" ++ seStr t ++ ", Ellipsis)"

def seStrL : SEList → String
  | .nil => ""
  | .cons x .nil => seStr x
  | .cons x xs => seStr x ++ ", " ++ seStrL xs

def seStrF : SEFields → String
  | .nil => ""
  | .cons k v xs => seStr k ++ ": " ++ seStr v ++ "; " ++ seStrF xs

end

/-- Sort key for schema.py line 42: `lambda t: t.__name__`.  A non-class
element would raise `AttributeError` in Python; such sets are excluded from
every statement below, and the model assigns them an empty key. -/
def nameKey : SE → String
  | .ty t => tyName t
  | _ => ""

/-- Stable ascending insertion by a string key, modelling `sorted`. -/
def insertSorted (f : SE → String) (x : SE) : SEList → SEList
  | .nil => .cons x .nil
  | .cons y ys =>
      if compare (f y) (f x) ≠ Ordering.gt then .cons y (insertSorted f x ys)
      else .cons x (.cons y ys)

def sortByKey (f : SE → String) : SEList → SEList
  | .nil => .nil
  | .cons x xs => insertSorted f x (sortByKey f xs)

/-- `arg is type(None)` (schema.py lines 33/36). -/
def isNoneTy : SE → Bool
  | .ty .noneT => true
  | _ => false

/-- Python dict assignment `out[k] = v` on an ordered association list: an
existing equal key keeps its position and gets the new value, a fresh key
is appended. -/
def pdictUpd : SEFields → SE → SE → SEFields
  | .nil, k, v => .cons k v .nil
  | .cons k0 v0 rest, k, v =>
      if k0 == k then .cons k0 v rest
      else .cons k0 v0 (pdictUpd rest k v)

/-- The key treatment of the plain-dict branch (schema.py lines 62-66),
applied to the already-normalized key: a set becomes a tuple sorted by
`str`; the result is kept when it is not a tuple or is a tuple of length
above one, and a tuple of length one is collapsed to its element
(`norm_key[0]`).  An empty tuple would raise `IndexError` in Python and
cannot arise from a real union; the model keeps it unchanged. -/
def collapseKeyLit (nk : SE) : SE :=
  let nk2 : SE := match nk with
    | .pset l => .ptuple (sortByKey seStr l)
    | x => x
  match nk2 with
  | .ptuple (.cons x .nil) => x
  | x => x

/-- The key treatment of the `Dict[K, V]` branch (schema.py lines 40-43),
applied to the already-normalized key parameter: a set is sorted by
`__name__` into a tuple; anything else passes through, and no singleton
collapse happens in this branch. -/
def collapseKeyGen (nk : SE) : SE :=
  match nk with
  | .pset l => .ptuple (sortByKey nameKey l)
  | x => x

mutual

/-- `Schema._normalize_schema` (schema.py lines 28-69).  Branches in source
order: union forms (lines 32-36, both `X | Y` and `typing.Union`, dropping
`type(None)` members and building a Python set); `Dict[K, V]` (lines
38-44, a set-valued normalized key type is sorted by `__name__` into a
tuple, with no singleton collapse in this branch); `List[T]` (lines
46-48); `Set[T]` (lines 50-52); `Tuple[...]` (lines 54-57); a plain dict
schema (lines 59-67, where a set-valued key is sorted by `str` into a
tuple and a tuple key of length at most one is collapsed to its sole
element, lines 65-66); anything else is returned unchanged (line 69). -/
def normalizeSchema : SE → SE
  | .union args => .pset (dedupSE (normFiltered args))
  | .dictOf k v =>
      .pdict (.cons (collapseKeyGen (normalizeSchema k)) (normalizeSchema v) .nil)
  | .listOf t => .plist (.cons (normalizeSchema t) .nil)
  | .setOf t => .pset (.cons (normalizeSchema t) .nil)
  | .tupleOf args => .ptuple (normSEL args)
  | .tupleVar t => .ptupleVar (normalizeSchema t)
  | .pdict fields => .pdict (normFields fields .nil)
  | x => x

def normSEL : SEList → SEList
  | .nil => .nil
  | .cons x xs => .cons (normalizeSchema x) (normSEL xs)

/-- The union set comprehension of schema.py lines 33/36: normalize each
member that is not the literal class `type(None)`. -/
def normFiltered : SEList → SEList
  | .nil => .nil
  | .cons a rest =>
      if isNoneTy a then normFiltered rest
      else .cons (normalizeSchema a) (normFiltered rest)

/-- The loop of schema.py lines 60-66, building the output dict left to
right with Python dict-assignment semantics. -/
def normFields : SEFields → SEFields → SEFields
  | .nil, acc => acc
  | .cons k v rest, acc =>
      normFields rest
        (pdictUpd acc (collapseKeyLit (normalizeSchema k)) (normalizeSchema v))

end

/-- `helpers.get_default_from_type` (helpers.py lines 149-182).  Checks in
source order: a tuple yields the default of its first element (line
151-152; an empty tuple raises `IndexError`, and the pair `(T, Ellipsis)`
is a tuple whose first element is `T`); a set yields `set()` (156-157); a
list yields `[]` (159-160); the tuple-container branches at lines 163-166
are dead code, since line 151 already returned for every tuple; a dict
yields the empty dict (169-170); the four scalar classes yield their zero
value (173-174); `NoneType` yields `None` (176-177); everything else is
called and a failure yields `None` (179-182): calling `typing.Any`,
`typing.Union[...]`, `typing.Tuple[...]` (its alias is non-instantiable),
a literal, or an unknown object raises, while calling `typing.Dict[...]`,
`typing.List[...]`, `typing.Set[...]` constructs the empty container. -/
def get_default_from_type : SE → Except PyErr PyVal
  | .ptuple (.cons x _) => get_default_from_type x
  | .ptuple .nil => .error (.indexError "tuple index out of range")
  | .ptupleVar t => get_default_from_type t
  | .pset _ => .ok (.set .nil)
  | .plist _ => .ok (.list .nil)
  | .pdict _ => .ok (.dict .nil)
  | .ty .int => .ok (.int 0)
  | .ty .float => .ok (.float 0)
  | .ty .str => .ok (.str "")
  | .ty .bool => .ok (.bool false)
  | .ty .noneT => .ok .none
  | .any => .ok .none
  | .union _ => .ok .none
  | .dictOf _ _ => .ok (.dict .nil)
  | .listOf _ => .ok (.list .nil)
  | .setOf _ => .ok (.set .nil)
  | .tupleOf _ => .ok .none
  | .tupleVar _ => .ok .none
  | .slit _ => .ok .none
  | .ilit _ => .ok .none
  | .blit _ => .ok .none

mutual

/-- `meta_core.get_default_value_from_type` (meta_core.py lines 15-55).
Checks in source order: `Any` (or a missing schema) yields `None` (16-17);
a union yields the default of its first non-`NoneType` member, or `None`
when there is none (22-26); plain list/set/dict schemas yield the empty
container (28-35); the four scalar classes yield their zero value (37-38);
the typing aliases `List`/`Set`/`Dict` yield the empty container (40-47);
a remaining class is called, `NoneType()` giving `None` (49-53); and
everything else (tuples in both forms, tuple aliases, literals) falls to
`None` (55). -/
def get_default_value_from_type : SE → PyVal
  | .any => .none
  | .union args => defaultFirstNonNone args
  | .plist _ => .list .nil
  | .pset _ => .set .nil
  | .pdict _ => .dict .nil
  | .ty .str => .str ""
  | .ty .int => .int 0
  | .ty .float => .float 0
  | .ty .bool => .bool false
  | .listOf _ => .list .nil
  | .setOf _ => .set .nil
  | .dictOf _ _ => .dict .nil
  | .ty .noneT => .none
  | _ => .none

/-- The union loop of meta_core.py lines 23-26: the default of the first
member that is not `type(None)`. -/
def defaultFirstNonNone : SEList → PyVal
  | .nil => .none
  | .cons a rest =>
      if isNoneTy a then defaultFirstNonNone rest
      else get_default_value_from_type a

end

mutual

/-- Deep unwrapping `MetaContainer.to_native` / scalar `to_native`
(meta_core.py lines 545-556, 81, meta_base.py lines 121, 151): map keys are
already raw, children are unwrapped recursively, scalars yield their
underlying value. -/
def to_native : Node → PyVal
  | .mnone => .none
  | .mbool b => .bool b
  | .mint n => .int n
  | .mfloat n => .float n
  | .mstr s => .str s
  | .mlist xs => .list (toNativeL xs)
  | .mtuple xs => .tuple (toNativeL xs)
  | .mset xs => .set (toNativeL xs)
  | .mdict xs => .dict (toNativeE xs)

def toNativeL : NList → VList
  | .nil => .nil
  | .cons x xs => .cons (to_native x) (toNativeL xs)

def toNativeE : NEntries → VPairs
  | .nil => .nil
  | .cons k v xs => .cons k (to_native v) (toNativeE xs)

end

/-- Python iteration (`for item in data` / `enumerate(data)`): lists,
tuples and sets yield their elements, dicts yield their keys, strings
yield their characters as one-character strings, scalars raise
`TypeError`. -/
def vpKeys : VPairs → VList
  | .nil => .nil
  | .cons k _ xs => .cons k (vpKeys xs)

def strChars (s : String) : VList :=
  VList.ofList (s.data.map fun c => PyVal.str (String.singleton c))

def pyIter : PyVal → Except PyErr VList
  | .list xs => .ok xs
  | .tuple xs => .ok xs
  | .set xs => .ok xs
  | .dict xs => .ok (vpKeys xs)
  | .str s => .ok (strChars s)
  | _ => .error (.typeError "object is not iterable")

/-- A short rendering of a value for error messages. -/
def pyRepr : PyVal → String
  | .none => "None"
  | .bool b => toString b
  | .int n => toString n
  | .float n => toString n ++ ".0"
  | .str s => "str " ++ s
  | .list _ => "a list"
  | .tuple _ => "a tuple"
  | .set _ => "a set"
  | .dict _ => "a dict"

/-- Python `==` between a runtime value and a schema key, used for
`key in schema_dict`: only literal schema keys can equal a value (a class
or a tuple of classes never equals a runtime value). -/
def keyLitEq (k : PyVal) : SE → Bool
  | .slit s => pyEqB k (.str s)
  | .ilit n => pyEqB k (.int n)
  | .blit b => pyEqB k (.bool b)
  | _ => false

/-- `isinstance(k, pattern)` over the elements of a tuple key-pattern, with
the short-circuit of `any(...)`: a non-class element raises `TypeError`
unless a match was already found. -/
def anyIsinstance (v : PyVal) : SEList → Except PyErr Bool
  | .nil => .ok false
  | .cons (.ty t) rest =>
      if isinstanceTy v t then .ok true else anyIsinstance v rest
  | .cons _ _ => .error (.typeError "isinstance() arg 2 must be a type")

/-- The same check for the pair `(T, Ellipsis)`, whose second element is
never a class. -/
def anyIsinstanceVar (v : PyVal) (t : SE) : Except PyErr Bool :=
  match t with
  | .ty u =>
      if isinstanceTy v u then .ok true
      else .error (.typeError "isinstance() arg 2 must be a type")
  | _ => .error (.typeError "isinstance() arg 2 must be a type")

/-- The data handed to `SchemaValidator.validate_all`: either a raw Python
value or a wrapped node (schema_validator.py lines 318-321 dispatch on
`isinstance(data, MetaNodeMixin)`). -/
inductive DataV where
  | native (v : PyVal)
  | node (n : Node)
deriving DecidableEq

def neKeys : NEntries → VList
  | .nil => .nil
  | .cons k _ xs => .cons k (neKeys xs)

/-- The keys of `data` when it is a dict (a raw dict or a `MetaDict` node,
both `isinstance(data, dict)` in Python). -/
def dataKeys : DataV → Option VList
  | .native (.dict ps) => some (vpKeys ps)
  | .node (.mdict es) => some (neKeys es)
  | _ => Option.none

/-- `k in expected_type` of schema_validator.py line 300: Python dict
membership of the data key among the schema keys. -/
def keyInFields (k : PyVal) : SEFields → Bool
  | .nil => false
  | .cons sk _ rest => keyLitEq k sk || keyInFields k rest

/-- The fallback loop of schema_validator.py lines 302-311: a tuple
key-pattern matches when `any` element-class matches (a non-class element
raises), a class key-pattern matches by `isinstance`, and literal keys are
skipped. -/
def keyTypeMatch (k : PyVal) : SEFields → Except PyErr Bool
  | .nil => .ok false
  | .cons sk _ rest =>
      match sk with
      | .ptuple ts => do
          let b ← anyIsinstance k ts
          if b then .ok true else keyTypeMatch k rest
      | .ptupleVar t => do
          let b ← anyIsinstanceVar k t
          if b then .ok true else keyTypeMatch k rest
      | .ty t => if isinstanceTy k t then .ok true else keyTypeMatch k rest
      | _ => keyTypeMatch k rest

/-- The closed-world key scan of `validate_all` (schema_validator.py lines
298-314): every key of the data map must equal a schema key or match a
declared key type, and the first key that does neither raises
`TypeError`. -/
def keyScan (fields : SEFields) : VList → Except PyErr Unit
  | .nil => .ok ()
  | .cons k rest => do
      if keyInFields k fields then keyScan fields rest
      else do
        let m ← keyTypeMatch k fields
        if m then keyScan fields rest
        else .error (.typeError ("[x] Key " ++ pyRepr k ++ " not allowed by schema"))

/-- The empty-container acceptance of `resolve_union_branch`
(schema_validator.py lines 169-178 and 195-202): a branch whose origin is
dict/list/set is accepted at once when the value is an empty container of
that same kind. -/
def rubEmptyMatch (value : PyVal) (arg : SE) : Bool :=
  match arg, value with
  | .dictOf _ _, .dict .nil => true
  | .listOf _, .list .nil => true
  | .setOf _, .set .nil => true
  | _, _ => false

/-- `helpers.resolve_schema_key` (helpers.py lines 55-78), called with the
key-path string: `Dict[K, V]` yields `V`; an explicit dict is consulted by
exact key then by single-class key type; anything else yields `None`. -/
def rskLookupLit (k : PyVal) : SEFields → Option SE
  | .nil => Option.none
  | .cons sk v rest => if keyLitEq k sk then some v else rskLookupLit k rest

def rskTypeScan (k : PyVal) : SEFields → Option SE
  | .nil => Option.none
  | .cons (.ty t) v rest =>
      if isinstanceTy k t then some v else rskTypeScan k rest
  | .cons _ _ rest => rskTypeScan k rest

def resolve_schema_key (key : String) (schema : Option SE) : Option SE :=
  match schema with
  | Option.none => Option.none
  | some (.dictOf _ vT) => some vT
  | some (.pdict fields) =>
      if keyInFields (.str key) fields then rskLookupLit (.str key) fields
      else rskTypeScan (.str key) fields
  | _ => Option.none

/-- `SchemaValidator._extract_keyval_types` (schema_validator.py lines
57-70): the two parameters of a `Dict[K, V]` schema, or of the first
`Dict` member of a union, else `(None, None)`. -/
def ektScan : SEList → Option SE × Option SE
  | .nil => (Option.none, Option.none)
  | .cons (.dictOf kT vT) _ => (some kT, some vT)
  | .cons _ rest => ektScan rest

def extract_keyval_types : SE → Option SE × Option SE
  | .dictOf kT vT => (some kT, some vT)
  | .union args => ektScan args
  | _ => (Option.none, Option.none)

def vlLen : VList → Nat
  | .nil => 0
  | .cons _ xs => vlLen xs + 1

def selLen : SEList → Nat
  | .nil => 0
  | .cons _ xs => selLen xs + 1

mutual

/-- `SchemaValidator.validate_all` (schema_validator.py lines 293-321):
a missing schema passes everything (294-295); a dict schema over dict data
first runs the closed-world key scan (298-314); then a node is validated
through `_validate_meta`/`validate_recursive` (318-319, 54-55) and a raw
value through `_validate_native` (321).  `type_check` unwraps nodes to
their native value at once (line 76-77), and every schema built by
`Schema` is normalized, carrying no `typing` origins, so the node path is
entered with the node unwrapped by `to_native`. -/
def validate_all : Nat → Option SE → DataV → Except PyErr Unit
  | 0, _, _ => .error .fuelOut
  | f + 1, schema, data =>
      match schema with
      | Option.none => .ok ()
      | some sch => do
          let _ ← (match sch, dataKeys data with
            | .pdict fields, some ks => keyScan fields ks
            | _, _ => .ok ())
          match data with
          | .node n => validate_recursive f (some sch) "value" (to_native n) (some sch)
          | .native v => validate_native f v (some sch)

/-- `SchemaValidator._validate_native` (schema_validator.py lines 30-52):
a union is first resolved to one branch (31-32); a `Dict[K, V]` origin
checks keys and recurses on values, raising `AttributeError` when the data
has no `.items` (36-44); `List[T]`/`Set[T]` origins iterate the data
(46-49); everything else goes to `type_check` (51-52). -/
def validate_native : Nat → PyVal → Option SE → Except PyErr Unit
  | 0, _, _ => .error .fuelOut
  | f + 1, data, expected => do
      let expected2 : Option SE ←
        (match expected with
         | some (.union args) => do
             let a ← resolve_union_branch f data args
             pure (some a)
         | e => pure e)
      match expected2 with
      | some (.dictOf kT vT) =>
          (match data with
           | .dict ps => vnEntries f ps kT vT
           | _ => .error (.attributeError "object has no attribute items"))
      | some (.listOf iT) => do
          let items ← pyIter data
          vnItems f items iT
      | some (.setOf iT) => do
          let items ← pyIter data
          vnItems f items iT
      | e2 => type_check f data e2

def vnEntries : Nat → VPairs → SE → SE → Except PyErr Unit
  | 0, _, _, _ => .error .fuelOut
  | _ + 1, .nil, _, _ => .ok ()
  | f + 1, .cons k v rest, kT, vT => do
      type_check f k (some kT)
      validate_native f v (some vT)
      vnEntries f rest kT vT

def vnItems : Nat → VList → SE → Except PyErr Unit
  | 0, _, _ => .error .fuelOut
  | _ + 1, .nil, _ => .ok ()
  | f + 1, .cons x rest, iT => do
      validate_native f x (some iT)
      vnItems f rest iT

/-- `SchemaValidator.resolve_union_branch` (schema_validator.py lines
162-211), for a union argument list.  Pass 1 (166-191): for each branch in
declaration order, an empty container of the branch kind is accepted at
once; otherwise an inner scan re-validates the value against every branch
from the start, returning the first full success and swallowing only
`TypeError`; if the inner scan is exhausted, `type_check` against the
current branch is run for effect only (its success does not return) and
the outer loop continues, its `except TypeError` also swallowing only
`TypeError`.  Pass 2 (193-209): the same empty-container checks, then one
full validation per branch.  Exhaustion raises `TypeError` (211). -/
def resolve_union_branch : Nat → PyVal → SEList → Except PyErr SE
  | 0, _, _ => .error .fuelOut
  | f + 1, value, args => do
      match ← rubOuter1 f value args args with
      | some a => pure a
      | Option.none =>
          match ← rubOuter2 f value args with
          | some a => pure a
          | Option.none =>
              .error (.typeError ("[x] " ++ pyRepr value ++ " did not match any Union types"))

def rubOuter1 : Nat → PyVal → SEList → SEList → Except PyErr (Option SE)
  | 0, _, _, _ => .error .fuelOut
  | _ + 1, _, .nil, _ => .ok Option.none
  | f + 1, value, .cons arg rest, allArgs =>
      if rubEmptyMatch value arg then .ok (some arg)
      else do
        match ← rubInner f value allArgs with
        | some c => pure (some c)
        | Option.none =>
            match type_check f value (some arg) with
            | .ok _ => rubOuter1 f value rest allArgs
            | .error (.typeError _) => rubOuter1 f value rest allArgs
            | .error e => .error e

def rubInner : Nat → PyVal → SEList → Except PyErr (Option SE)
  | 0, _, _ => .error .fuelOut
  | _ + 1, _, .nil => .ok Option.none
  | f + 1, value, .cons curr rest =>
      match validate_all f (some curr) (.native value) with
      | .ok _ => .ok (some curr)
      | .error (.typeError _) => rubInner f value rest
      | .error e => .error e

def rubOuter2 : Nat → PyVal → SEList → Except PyErr (Option SE)
  | 0, _, _ => .error .fuelOut
  | _ + 1, _, .nil => .ok Option.none
  | f + 1, value, .cons arg rest =>
      if rubEmptyMatch value arg then .ok (some arg)
      else
        match validate_all f (some arg) (.native value) with
        | .ok _ => .ok (some arg)
        | .error (.typeError _) => rubOuter2 f value rest
        | .error e => .error e

/-- `SchemaValidator.type_check` (schema_validator.py lines 72-115): `None`
and `Any` pass (73-74); nodes were already unwrapped (76-77, see
`validate_all`); a plain tuple of classes is a normalized union, checked
by `any(isinstance(...))` (80-83); a one-element set/list/dict schema
checks the corresponding container shape and its members (86-111), while
other lengths fall through; the rest goes to `is_type_match` (113-115). -/
def type_check : Nat → PyVal → Option SE → Except PyErr Unit
  | 0, _, _ => .error .fuelOut
  | f + 1, value, expected =>
      match expected with
      | Option.none => .ok ()
      | some .any => .ok ()
      | some (.ptuple ts) => do
          let b ← anyIsinstance value ts
          if b then .ok ()
          else .error (.typeError ("[x] expected one of a tuple of classes, got " ++ pyRepr value))
      | some (.ptupleVar t) => do
          let b ← anyIsinstanceVar value t
          if b then .ok ()
          else .error (.typeError ("[x] expected one of a tuple of classes, got " ++ pyRepr value))
      | some (.pset (.cons inner .nil)) =>
          (match value with
           | .set xs => tcItems f xs inner
           | _ => .error (.typeError ("[x] expected a set, got " ++ pyRepr value)))
      | some (.plist (.cons inner .nil)) =>
          (match value with
           | .list xs => tcItems f xs inner
           | _ => .error (.typeError ("[x] expected a list, got " ++ pyRepr value)))
      | some (.pdict (.cons kT vT .nil)) =>
          (match value with
           | .dict ps => tcEntries f ps kT vT
           | _ => .error (.typeError ("[x] expected a dict, got " ++ pyRepr value)))
      | some e => do
          let b ← is_type_match f value e
          if b then .ok ()
          else .error (.typeError ("[x] expected " ++ seStr e ++ ", got " ++ pyRepr value))

def tcItems : Nat → VList → SE → Except PyErr Unit
  | 0, _, _ => .error .fuelOut
  | _ + 1, .nil, _ => .ok ()
  | f + 1, .cons x rest, inner => do
      type_check f x (some inner)
      tcItems f rest inner

def tcEntries : Nat → VPairs → SE → SE → Except PyErr Unit
  | 0, _, _, _ => .error .fuelOut
  | _ + 1, .nil, _, _ => .ok ()
  | f + 1, .cons k v rest, kT, vT => do
      type_check f k (some kT)
      type_check f v (some vT)
      tcEntries f rest kT vT

/-- `helpers.is_type_match` (helpers.py lines 3-53): a union matches when
any member matches (11-12); `List`/`Set`/`Dict`/`Tuple` origins match
structurally and recursively (15-46); a bare class is an `isinstance`
check (49-50); everything else matches (53). -/
def is_type_match : Nat → PyVal → SE → Except PyErr Bool
  | 0, _, _ => .error .fuelOut
  | f + 1, value, e =>
      match e with
      | .union args => itmAny f value args
      | .listOf iT =>
          (match value with
           | .list xs => itmAll f xs iT
           | _ => .ok false)
      | .setOf iT =>
          (match value with
           | .set xs => itmAll f xs iT
           | _ => .ok false)
      | .dictOf kT vT =>
          (match value with
           | .dict ps => itmPairs f ps kT vT
           | _ => .ok false)
      | .tupleOf args =>
          (match value with
           | .tuple xs =>
               if vlLen xs = selLen args then itmZip f xs args else .ok false
           | _ => .ok false)
      | .tupleVar iT =>
          (match value with
           | .tuple xs => itmAll f xs iT
           | _ => .ok false)
      | .ty t => .ok (isinstanceTy value t)
      | _ => .ok true

def itmAny : Nat → PyVal → SEList → Except PyErr Bool
  | 0, _, _ => .error .fuelOut
  | _ + 1, _, .nil => .ok false
  | f + 1, value, .cons a rest => do
      let b ← is_type_match f value a
      if b then .ok true else itmAny f value rest

def itmAll : Nat → VList → SE → Except PyErr Bool
  | 0, _, _ => .error .fuelOut
  | _ + 1, .nil, _ => .ok true
  | f + 1, .cons x rest, iT => do
      let b ← is_type_match f x iT
      if b then itmAll f rest iT else .ok false

def itmZip : Nat → VList → SEList → Except PyErr Bool
  | 0, _, _ => .error .fuelOut
  | f + 1, .cons x xs, .cons a rest => do
      let b ← is_type_match f x a
      if b then itmZip f xs rest else .ok false
  | _ + 1, _, _ => .ok true

def itmPairs : Nat → VPairs → SE → SE → Except PyErr Bool
  | 0, _, _, _ => .error .fuelOut
  | _ + 1, .nil, _, _ => .ok true
  | f + 1, .cons k v rest, kT, vT => do
      let bk ← is_type_match f k kT
      let bv ← is_type_match f v vT
      if bk && bv then itmPairs f rest kT vT else .ok false

/-- `SchemaValidator.validate_recursive` (schema_validator.py lines
262-275): a missing expected type is resolved from the validator schema by
the key path (263-264); container forms go to `validate_container`
(266-270), tuple origins to `validate_tuple` (272-273), the rest to
`validate_scalar` (275). -/
def validate_recursive : Nat → Option SE → String → PyVal → Option SE → Except PyErr Unit
  | 0, _, _, _, _ => .error .fuelOut
  | f + 1, selfSchema, keyPath, value, expectedIn =>
      let expected : Option SE :=
        match expectedIn with
        | Option.none => resolve_schema_key keyPath selfSchema
        | some e => some e
      match expected with
      | some (.listOf _) => validate_container f selfSchema keyPath value expected
      | some (.setOf _) => validate_container f selfSchema keyPath value expected
      | some (.dictOf _ _) => validate_container f selfSchema keyPath value expected
      | some (.plist _) => validate_container f selfSchema keyPath value expected
      | some (.pset _) => validate_container f selfSchema keyPath value expected
      | some (.pdict _) => validate_container f selfSchema keyPath value expected
      | some (.tupleOf args) => validate_tuple f selfSchema keyPath value (.tupleOf args)
      | some (.tupleVar t) => validate_tuple f selfSchema keyPath value (.tupleVar t)
      | e => validate_scalar f keyPath value e

/-- `SchemaValidator.validate_container` (schema_validator.py lines
228-254): `None` passes (229-230); `type_check` runs first (233); then
only `typing` origins recurse — `List[T]` over elements (237-240, the
tuple half of that test is unreachable, tuples being routed to
`validate_tuple`), `Set[T]` over elements (242-245), `Dict[K, V]` over
items through `_extract_keyval_types` (247-251); normalized container
forms have no origin and recurse nowhere. -/
def validate_container : Nat → Option SE → String → PyVal → Option SE → Except PyErr Unit
  | 0, _, _, _, _ => .error .fuelOut
  | f + 1, selfSchema, keyPath, value, expected =>
      match expected with
      | Option.none => .ok ()
      | some e => do
          type_check f value (some e)
          match e with
          | .listOf iT => do
              let items ← pyIter value
              vcItems f selfSchema keyPath items iT
          | .setOf iT => do
              let items ← pyIter value
              vcItems f selfSchema keyPath items iT
          | .dictOf _ _ =>
              (match extract_keyval_types e, value with
               | (kT, vT), .dict ps => vcPairs f selfSchema keyPath ps kT vT
               | _, _ => .error (.attributeError "object has no attribute items"))
          | _ => .ok ()

def vcItems : Nat → Option SE → String → VList → SE → Except PyErr Unit
  | 0, _, _, _, _ => .error .fuelOut
  | _ + 1, _, _, .nil, _ => .ok ()
  | f + 1, selfSchema, keyPath, .cons x rest, iT => do
      validate_recursive f selfSchema keyPath x (some iT)
      vcItems f selfSchema keyPath rest iT

def vcPairs : Nat → Option SE → String → VPairs → Option SE → Option SE → Except PyErr Unit
  | 0, _, _, _, _, _ => .error .fuelOut
  | _ + 1, _, _, .nil, _, _ => .ok ()
  | f + 1, selfSchema, keyPath, .cons k v rest, kT, vT => do
      validate_recursive f selfSchema keyPath k kT
      validate_recursive f selfSchema keyPath v vT
      vcPairs f selfSchema keyPath rest kT vT

/-- `SchemaValidator.validate_scalar` (schema_validator.py lines 256-259):
resolve a union to one branch, then `type_check` against it. -/
def validate_scalar : Nat → String → PyVal → Option SE → Except PyErr Unit
  | 0, _, _, _ => .error .fuelOut
  | f + 1, _keyPath, value, expected => do
      let matched : Option SE ←
        (match expected with
         | some (.union args) => do
             let a ← resolve_union_branch f value args
             pure (some a)
         | e => pure e)
      type_check f value matched

/-- `SchemaValidator.validate_tuple` (schema_validator.py lines 213-226):
the value must be a tuple (214-215); the `Tuple[T, ...]` form checks every
element against `T` (218-221); the fixed form first checks the arity
(223-224) and then each position (225-226). -/
def validate_tuple : Nat → Option SE → String → PyVal → SE → Except PyErr Unit
  | 0, _, _, _, _ => .error .fuelOut
  | f + 1, selfSchema, keyPath, value, expected =>
      match value with
      | .tuple xs =>
          (match expected with
           | .tupleVar iT => vtItems f selfSchema keyPath xs iT
           | .tupleOf args =>
               if selLen args ≠ vlLen xs then
                 .error (.typeError (keyPath ++ ": tuple arity mismatch"))
               else vtZip f selfSchema keyPath xs args
           | _ => .ok ())
      | _ => .error (.typeError (keyPath ++ ": expected tuple, got " ++ pyRepr value))

def vtItems : Nat → Option SE → String → VList → SE → Except PyErr Unit
  | 0, _, _, _, _ => .error .fuelOut
  | _ + 1, _, _, .nil, _ => .ok ()
  | f + 1, selfSchema, keyPath, .cons x rest, iT => do
      validate_recursive f selfSchema keyPath x (some iT)
      vtItems f selfSchema keyPath rest iT

def vtZip : Nat → Option SE → String → VList → SEList → Except PyErr Unit
  | 0, _, _, _, _ => .error .fuelOut
  | f + 1, selfSchema, keyPath, .cons x xs, .cons a rest => do
      validate_recursive f selfSchema keyPath x (some a)
      vtZip f selfSchema keyPath xs rest
  | _ + 1, _, _, _, _ => .ok ()

end

/-- Python truthiness of a raw schema expression (`if raw_schema` in
schema.py line 18): empty containers, zero, the empty string and `False`
are falsy. -/
def isFalsySE : SE → Bool
  | .pdict .nil => true
  | .plist .nil => true
  | .pset .nil => true
  | .ptuple .nil => true
  | .ilit 0 => true
  | .slit "" => true
  | .blit false => true
  | _ => false

/-- `isinstance(self.schema, (dict, list, tuple, set, bool, str, int))`
(schema.py line 22), computed on the normalized schema: plain containers
and literal bool/str/int values are instances, classes and `typing`
objects are not. -/
def isInstOfLiteralKinds : SE → Bool
  | .pdict _ => true
  | .plist _ => true
  | .pset _ => true
  | .ptuple _ => true
  | .ptupleVar _ => true
  | .blit _ => true
  | .slit _ => true
  | .ilit _ => true
  | _ => false

/-- The state of a `Schema` instance (schema.py lines 16-22): the
normalized schema (or `None` when the raw expression was falsy) and the
`_validate` flag (the `validate` keyword if given, else the isinstance
heuristic of line 22, which is `False` when the schema is `None`). -/
structure SchemaObj where
  schema : Option SE
  validate : Bool
deriving DecidableEq

/-- `Schema.__init__` (schema.py lines 17-22). -/
def mkSchema (raw : Option SE) (validateKw : Option Bool) : SchemaObj :=
  let schema : Option SE :=
    match raw with
    | Option.none => Option.none
    | some r => if isFalsySE r then Option.none else some (normalizeSchema r)
  let v : Bool :=
    match validateKw with
    | some b => b
    | Option.none =>
        match schema with
        | some s => isInstOfLiteralKinds s
        | Option.none => false
  ⟨schema, v⟩

/-- `Schema.ensure` on a raw (non-`Schema`) argument (schema.py lines
24-26): a fresh `Schema` with default keywords, so the `validate` flag is
recomputed from the heuristic rather than inherited. -/
def ensure (raw : Option SE) : SchemaObj := mkSchema raw Option.none

/-- Truthiness of the stored schema (`if self.schema and validator_cls`,
schema.py line 19). -/
def schemaTruthy (s : Option SE) : Bool :=
  match s with
  | some x => !isFalsySE x
  | Option.none => false

/-- `Schema.build_validator` (schema.py lines 175-180) followed by a
`validate_all` call on a node, as done by the node wrapper
(meta_core.py lines 750-752, 763-765, 770-772): with `_validate` unset the
`NoOpValidator` passes everything; with it set, a real validator runs.
With `_validate` set but a falsy stored schema, line 179 calls
`NoOpValidator(self.schema)`, which raises `TypeError` (`NoOpValidator`
accepts no arguments) — a corner no statement below exercises. -/
def runNodeValidator (fuel : Nat) (s : SchemaObj) (n : Node) : Except PyErr Unit :=
  if s.validate then
    if schemaTruthy s.schema then validate_all fuel s.schema (.node n)
    else .error (.typeError "NoOpValidator() takes no arguments")
  else .ok ()

/-- Decimal parsing for `int(s)` / `float(s)` on strings: surrounding
spaces are stripped, an optional sign precedes decimal digits (Python
accepts further numeric shapes that never occur here). -/
def digitsToNat : List Char → Nat → Option Nat
  | [], acc => some acc
  | c :: cs, acc =>
      if c.isDigit then digitsToNat cs (acc * 10 + (c.toNat - 48))
      else Option.none

def allDigitsToNat : List Char → Option Nat
  | [] => Option.none
  | cs => digitsToNat cs 0

def trimChars (cs : List Char) : List Char :=
  ((cs.dropWhile (· == ' ')).reverse.dropWhile (· == ' ')).reverse

def strToIntPy (s : String) : Option Int :=
  match trimChars s.data with
  | '-' :: cs => (allDigitsToNat cs).map (fun n => -(n : Int))
  | '+' :: cs => (allDigitsToNat cs).map (fun n => (n : Int))
  | cs => (allDigitsToNat cs).map (fun n => (n : Int))

/-- `int(x)` / `float(x)` / `str(x)` / `bool(x)` as key constructors.
`int` of a string parses an optionally signed decimal (`ValueError`
otherwise) and truncates an (integral) float; `bool` is truthiness;
`NoneType` accepts no argument.  String rendering of containers is coarse
(it is never inspected by the engine). -/
def pyTruthy : PyVal → Bool
  | .none => false
  | .bool b => b
  | .int n => n != 0
  | .float n => n != 0
  | .str s => s != ""
  | .list xs => xs != .nil
  | .tuple xs => xs != .nil
  | .set xs => xs != .nil
  | .dict ps => ps != .nil

def pyStrOf : PyVal → String
  | .str s => s
  | .bool b => toString b
  | .int n => toString n
  | .float n => toString n ++ ".0"
  | .none => "None"
  | v => pyRepr v

def pyCallType (t : PyTy) (v : PyVal) : Except PyErr PyVal :=
  match t, v with
  | .int, .int n => .ok (.int n)
  | .int, .bool b => .ok (.int (if b then 1 else 0))
  | .int, .float n => .ok (.int n)
  | .int, .str s =>
      (match strToIntPy s with
       | some n => .ok (.int n)
       | Option.none => .error (.valueError "invalid literal for int"))
  | .int, _ => .error (.typeError "int() argument must be a string or a number")
  | .float, .int n => .ok (.float n)
  | .float, .bool b => .ok (.float (if b then 1 else 0))
  | .float, .float n => .ok (.float n)
  | .float, .str s =>
      (match strToIntPy s with
       | some n => .ok (.float n)
       | Option.none => .error (.valueError "could not convert string to float"))
  | .float, _ => .error (.typeError "float() argument must be a string or a number")
  | .str, w => .ok (.str (pyStrOf w))
  | .bool, w => .ok (.bool (pyTruthy w))
  | .noneT, _ => .error (.typeError "NoneType takes no arguments")

/-- `Schema.coerce_key` (schema.py lines 139-148): only a `Dict[K, V]`
schema coerces, by calling `K` on the key and ignoring
`ValueError`/`TypeError`.  The stored schema of any constructed `Schema`
is normalized and never of `Dict` origin, so this is the identity in
every wrapping path. -/
def coerce_key (s : SchemaObj) (key : PyVal) : PyVal :=
  match s.schema with
  | some (.dictOf (.ty kt) _) =>
      (match pyCallType kt key with
       | .ok v => v
       | .error _ => key)
  | _ => key

/-- `helpers.coerce_key_to_type` (helpers.py lines 184-188): call the
target class on the key, returning the key unchanged on any exception. -/
def coerce_key_to_type (key : PyVal) (kt : SE) : PyVal :=
  match kt with
  | .ty t =>
      (match pyCallType t key with
       | .ok v => v
       | .error _ => key)
  | _ => key

/-- `key` viewed as an index (`isinstance(key, int)` is true for booleans
too). -/
def asIndex : PyVal → Option Int
  | .int n => some n
  | .bool b => some (if b then 1 else 0)
  | _ => Option.none

def selNth : SEList → Nat → Option SE
  | .nil, _ => Option.none
  | .cons x _, 0 => some x
  | .cons _ xs, n + 1 => selNth xs n

/-- `list(schema)[key]` with Python index semantics: negative indices wrap
once, anything out of range is `IndexError` (caught by the caller into the
`Any` fallback). -/
def pyIndex (items : SEList) (i : Int) : Option SE :=
  let n : Int := selLen items
  if 0 ≤ i ∧ i < n then selNth items i.toNat
  else if -n ≤ i ∧ i < 0 then selNth items (i + n).toNat
  else Option.none

/-- The key-pattern scan of `Schema.resolve_from` (schema.py lines
110-117): a tuple pattern matches when `any` member class matches (a
non-class member raises `TypeError`), a class pattern by `isinstance`. -/
def rfScan (key : PyVal) : SEFields → Except PyErr (Option SE)
  | .nil => .ok Option.none
  | .cons sk v rest =>
      match sk with
      | .ptuple ts => do
          let b ← anyIsinstance key ts
          if b then .ok (some v) else rfScan key rest
      | .ptupleVar t => do
          let b ← anyIsinstanceVar key t
          if b then .ok (some v) else rfScan key rest
      | .ty t => if isinstanceTy key t then .ok (some v) else rfScan key rest
      | _ => rfScan key rest

/-- `Schema.resolve_from` (schema.py lines 97-137): a dict schema is
consulted by exact key, then by key-pattern scan; a list/set schema is
indexed by an integer key, `IndexError` falling through; a tuple schema
uses the level (its variadic pair form always yields the item type); any
failure falls back to `Any` (lines 131-133); the sub-`Schema` is built
with the parent `_validate` flag passed explicitly (line 137). -/
def resolve_from (s : SchemaObj) (key : PyVal) (level : Nat) : Except PyErr SchemaObj := do
  let subRaw : Option SE ←
    (match s.schema with
     | some (.pdict fields) =>
         if keyInFields key fields then pure (rskLookupLit key fields)
         else rfScan key fields
     | some (.plist items) =>
         (match asIndex key with
          | some i => pure (pyIndex items i)
          | Option.none => pure Option.none)
     | some (.pset items) =>
         (match asIndex key with
          | some i => pure (pyIndex items i)
          | Option.none => pure Option.none)
     | some (.ptuple items) =>
         (match items with
          | .nil => .error (.indexError "tuple index out of range")
          | _ => pure (if level < selLen items then selNth items level else Option.none))
     | some (.ptupleVar t) => pure (some t)
     | _ => pure Option.none)
  let subRaw2 : SE :=
    match subRaw with
    | Option.none => .any
    | some x => x
  pure (mkSchema (some subRaw2) (some s.validate))

/-- Python dict assignment on value-keyed association lists (used wherever
the source builds a dict with `out[k] = v`): an existing `==`-equal key
keeps its position and receives the new value. -/
def vpairsUpd : VPairs → PyVal → PyVal → VPairs
  | .nil, k, v => .cons k v .nil
  | .cons k0 v0 rest, k, v =>
      if pyEqB k0 k then .cons k0 v rest
      else .cons k0 v0 (vpairsUpd rest k v)

def neUpd : NEntries → PyVal → Node → NEntries
  | .nil, k, v => .cons k v .nil
  | .cons k0 v0 rest, k, v =>
      if pyEqB k0 k then .cons k0 v rest
      else .cons k0 v0 (neUpd rest k v)

/-- `k.isdigit()` for strings. -/
def strIsDigit (s : String) : Bool :=
  s != "" && s.data.all Char.isDigit

/-- The local `coerce_key` of `meta_core.coerce_dict_keys` (meta_core.py
lines 694-702): an all-digit string becomes an int when the key type is
`int`; a string parses to a float when the key type is `float`; anything
else is unchanged. -/
def mcCoerceKey (k : PyVal) (kT : SE) : PyVal :=
  match kT, k with
  | .ty .int, .str s =>
      if strIsDigit s then
        (match strToIntPy s with
         | some n => .int n
         | Option.none => k)
      else k
  | .ty .float, .str s =>
      (match strToIntPy s with
       | some n => .float n
       | Option.none => k)
  | _, _ => k

mutual

/-- `meta_core.coerce_dict_keys` (meta_core.py lines 686-715): only a
`Dict[K, V]` origin schema coerces keys (and recurses into dict values
with `V`); any other schema — in particular every normalized schema —
returns the data unchanged (line 715). -/
def coerce_dict_keys_mc : PyVal → Option SE → PyVal
  | data, some (.dictOf kT vT) =>
      (match data with
       | .dict ps => .dict (cdkPairs ps kT vT .nil)
       | d => d)
  | data, _ => data

def cdkPairs : VPairs → SE → SE → VPairs → VPairs
  | .nil, _, _, acc => acc
  | .cons k v rest, kT, vT, acc =>
      let ck := mcCoerceKey k kT
      let cv : PyVal :=
        match v with
        | .dict _ => coerce_dict_keys_mc v (some vT)
        | w => w
      cdkPairs rest kT vT (vpairsUpd acc ck cv)

end

mutual

/-- Structural size of a value (each constructor counts one). -/
def sizeV : PyVal → Nat
  | .list xs => 1 + sizeVL xs
  | .tuple xs => 1 + sizeVL xs
  | .set xs => 1 + sizeVL xs
  | .dict ps => 1 + sizeVP ps
  | _ => 1

def sizeVL : VList → Nat
  | .nil => 0
  | .cons x xs => 1 + sizeV x + sizeVL xs

def sizeVP : VPairs → Nat
  | .nil => 0
  | .cons k v xs => 1 + sizeV k + sizeV v + sizeVP xs

end

mutual

/-- Structural size of a schema expression. -/
def sizeSE : SE → Nat
  | .union args => 1 + sizeSEL args
  | .dictOf k v => 1 + sizeSE k + sizeSE v
  | .listOf t => 1 + sizeSE t
  | .setOf t => 1 + sizeSE t
  | .tupleOf args => 1 + sizeSEL args
  | .tupleVar t => 1 + sizeSE t
  | .pdict fields => 1 + sizeSEF fields
  | .plist items => 1 + sizeSEL items
  | .pset items => 1 + sizeSEL items
  | .ptuple items => 1 + sizeSEL items
  | .ptupleVar t => 1 + sizeSE t
  | _ => 1

def sizeSEL : SEList → Nat
  | .nil => 0
  | .cons x xs => 1 + sizeSE x + sizeSEL xs

def sizeSEF : SEFields → Nat
  | .nil => 0
  | .cons k v xs => 1 + sizeSE k + sizeSE v + sizeSEF xs

end

mutual

/-- Structural size of a node. -/
def sizeN : Node → Nat
  | .mlist xs => 1 + sizeNL xs
  | .mtuple xs => 1 + sizeNL xs
  | .mset xs => 1 + sizeNL xs
  | .mdict es => 1 + sizeNE es
  | _ => 1

def sizeNL : NList → Nat
  | .nil => 0
  | .cons x xs => 1 + sizeN x + sizeNL xs

def sizeNE : NEntries → Nat
  | .nil => 0
  | .cons k v xs => 1 + sizeV k + sizeN v + sizeNE xs

end

def sizeSEO : Option SE → Nat
  | some x => sizeSE x
  | Option.none => 0

/-- Fuel amply sufficient for a validator run over the given node and
schema: the validator recursion depth is bounded by a small multiple of
the sizes involved. -/
def vfuelN (n : Node) (s : Option SE) : Nat :=
  8 * (sizeN n + sizeSEO s) + 64

def vfuelV (v : PyVal) (s : Option SE) : Nat :=
  8 * (sizeV v + sizeSEO s) + 64

/-- The validation of `MetaScalar.__new__` (meta_core.py lines 64-77):
`type_check(value, schema.schema)` through `schema.build_validator()`,
a no-op when `_validate` is unset (see `runNodeValidator` for the falsy
corner). -/
def scalar_new_check (s : SchemaObj) (v : PyVal) : Except PyErr Unit :=
  if s.validate then
    if schemaTruthy s.schema then type_check (vfuelV v s.schema) v s.schema
    else .error (.typeError "NoOpValidator() takes no arguments")
  else .ok ()

/-- `set.add` as overridden by `MetaContainer.add` for sets (meta_core.py
lines 340-352): an iterable value that is not a string/dict — here a
list, set or tuple node — is flattened one level, each child re-added
(the resolve/wrap round trip on an existing node is the identity);
anything else is added as is.  Python set deduplication is not modelled
(no statement below depends on it). -/
def nlAppend : NList → NList → NList
  | .nil, ys => ys
  | .cons x xs, ys => .cons x (nlAppend xs ys)

def setAddNode (acc : NList) (w : Node) : NList :=
  match w with
  | .mlist xs => nlAppend acc xs
  | .mset xs => nlAppend acc xs
  | .mtuple xs => nlAppend acc xs
  | x => nlAppend acc (.cons x .nil)

def setAddAll : NList → NList → NList
  | acc, .nil => acc
  | acc, .cons w rest => setAddAll (setAddNode acc w) rest

/-- Python hashability of a wrapped node, as `set(container_data)`
(meta_core.py line 761) exercises it: `MetaInt`, `MetaFloat` and `MetaStr`
inherit the builtin hash, and `MetaBool.__hash__` returns a `bool` (an
`int` subclass, meta_base.py line 128); but `MetaNone.__hash__` returns
`None` (meta_base.py line 157) and the container classes return
`self.to_native()` (meta_core.py lines 620-621) — a non-integer, so
hashing such a node raises `TypeError`. -/
def nodeHashable : Node → Bool
  | .mbool _ => true
  | .mint _ => true
  | .mfloat _ => true
  | .mstr _ => true
  | _ => false

def nlAllHashable : NList → Bool
  | .nil => true
  | .cons n ns => nodeHashable n && nlAllHashable ns

/-- A value whose wrapped node hashes to an integer: exactly the int,
float, string and bool scalars (`None` and containers wrap to unhashable
nodes, see `nodeHashable`). -/
def scalarHash : PyVal → Bool
  | .bool _ => true
  | .int _ => true
  | .float _ => true
  | .str _ => true
  | _ => false

mutual

/-- Every set anywhere inside the value holds only scalars whose wrapped
nodes are hashable: the condition under which the wrapper's
`set(container_data)` construction cannot raise. -/
def vSetsHashable : PyVal → Bool
  | .list xs => vlSetsHashable xs
  | .tuple xs => vlSetsHashable xs
  | .set xs => vlScalarHash xs
  | .dict ps => vpSetsHashable ps
  | _ => true

def vlSetsHashable : VList → Bool
  | .nil => true
  | .cons x xs => vSetsHashable x && vlSetsHashable xs

def vlScalarHash : VList → Bool
  | .nil => true
  | .cons x xs => scalarHash x && vlScalarHash xs

def vpSetsHashable : VPairs → Bool
  | .nil => true
  | .cons _ v rest => vSetsHashable v && vpSetsHashable rest

end

mutual

/-- `wrap_meta_structure` (meta_core.py lines 717-776) on raw data and an
already-constructed `Schema`; the fuel argument bounds the recursion depth
(any fuel above `sizeV` of the data reproduces the Python behaviour, the
wrapper recursing only into sub-values).  Dispatch follows the `META_TYPE_MAP`
iteration order (bool, int, float, str, dict, list, tuple, set,
NoneType).  Scalars run the `MetaScalar.__new__` check and then the
wrapper-level `validate_all` (lines 768-774); `MetaBool` and `MetaNone`
validate only against the `Schema` instance itself, which always passes
(meta_base.py lines 107, 41-45 with a non-class, non-container expected
object), leaving the wrapper-level `validate_all`.  A dict first passes
through `coerce_dict_keys` (a no-op on normalized schemas) with
`fill_defaults` unset, wraps each entry under `coerce_key` (identity on
normalized schemas) and `resolve_from`, builds the node — the `MetaDict`
constructor re-walk (meta_core.py lines 138-150) neither changes content
nor adds checks — and validates (lines 737-753).  A list resolves one
sub-schema by `schema_obj(data)`, i.e. `resolve_from(None, data, 0)`,
wraps elements, builds, validates (755-766); the `MetaList` constructor
walk adds nothing.  A tuple wraps its elements the same way, but
`MetaTuple.__new__` (lines 105-121) reads `get_args(schema)` from the
`Schema` *instance*, which is `()`, and zips the data against it: the
node is always the empty tuple.  A set wraps elements, builds
`set(container_data)` (line 761) — which hashes every wrapped node and
raises `TypeError` at the first unhashable one (see `nodeHashable`) —
and re-adds the members through the overridden `add` (see `setAddNode`).
`None` becomes `MetaNone`. -/
def wrap_meta_structure : Nat → PyVal → SchemaObj → Except PyErr Node
  | 0, _, _ => .error .fuelOut
  | f + 1, data, s =>
      match data with
      | .bool b => do
          let n := Node.mbool b
          let _ ← runNodeValidator (vfuelN n s.schema) s n
          pure n
      | .int i => do
          let _ ← scalar_new_check s (.int i)
          let n := Node.mint i
          let _ ← runNodeValidator (vfuelN n s.schema) s n
          pure n
      | .float x => do
          let _ ← scalar_new_check s (.float x)
          let n := Node.mfloat x
          let _ ← runNodeValidator (vfuelN n s.schema) s n
          pure n
      | .str st => do
          let _ ← scalar_new_check s (.str st)
          let n := Node.mstr st
          let _ ← runNodeValidator (vfuelN n s.schema) s n
          pure n
      | .dict ps => do
          let raw : PyVal := coerce_dict_keys_mc (.dict ps) s.schema
          let ps2 : VPairs := match raw with | .dict q => q | _ => ps
          let ws ← wrapEntries f ps2 s .nil
          let n := Node.mdict ws
          let _ ← runNodeValidator (vfuelN n s.schema) s n
          pure n
      | .list xs => do
          let sub ← resolve_from s .none 0
          let ws ← wrapItems f xs sub
          let n := Node.mlist ws
          let _ ← runNodeValidator (vfuelN n s.schema) s n
          pure n
      | .tuple xs => do
          let sub ← resolve_from s .none 0
          let _ ← wrapItems f xs sub
          let n := Node.mtuple .nil
          let _ ← runNodeValidator (vfuelN n s.schema) s n
          pure n
      | .set xs => do
          let sub ← resolve_from s .none 0
          let ws ← wrapItems f xs sub
          if nlAllHashable ws then
            let n := Node.mset (setAddAll .nil ws)
            let _ ← runNodeValidator (vfuelN n s.schema) s n
            pure n
          else .error (.typeError "__hash__ method should return an integer")
      | .none => do
          let n := Node.mnone
          let _ ← runNodeValidator (vfuelN n s.schema) s n
          pure n

/-- The dict-entry loop of `wrap_meta_structure` (meta_core.py lines
742-746), building with Python dict-assignment semantics. -/
def wrapEntries : Nat → VPairs → SchemaObj → NEntries → Except PyErr NEntries
  | 0, _, _, _ => .error .fuelOut
  | _ + 1, .nil, _, acc => pure acc
  | f + 1, .cons k v rest, s, acc => do
      let ck := coerce_key s k
      let sub ← resolve_from s ck 0
      let w ← wrap_meta_structure f v sub
      wrapEntries f rest s (neUpd acc ck w)

def wrapItems : Nat → VList → SchemaObj → Except PyErr NList
  | 0, _, _ => .error .fuelOut
  | _ + 1, .nil, _ => pure .nil
  | f + 1, .cons x rest, s => do
      let w ← wrap_meta_structure f x s
      let ws ← wrapItems f rest s
      pure (.cons w ws)

end

/-- Fuel amply sufficient for a wrapping run: the wrapper recursion depth
is bounded by the size of the data. -/
def wfuel (v : PyVal) : Nat := sizeV v + 8

def seAllTy : SEList → Bool
  | .nil => true
  | .cons (.ty _) rest => seAllTy rest
  | .cons _ _ => false

/-- The inner scan of the tuple-pattern case of `normalize_data`
(helpers.py lines 365-374): the first member class whose coercion of the
key is an instance of that class, with the coerced key. -/
def ndTupleScan (k : PyVal) : SEList → Option PyVal
  | .nil => Option.none
  | .cons (.ty t) rest =>
      let c := coerce_key_to_type k (.ty t)
      if isinstanceTy c t then some c else ndTupleScan k rest
  | .cons _ rest => ndTupleScan k rest

/-- The field-matching loop of the explicit-dict branch of
`normalize_data` (helpers.py lines 348-374), threading the state
`(coerced_key, matched_schema)`.  An exact key match or a class match
stops the loop (`break`); a tuple-of-classes match only updates the state
— its `break` leaves the inner loop over the tuple, not the loop over the
fields — so later fields can override it. -/
def ndFields (k : PyVal) : SEFields → PyVal → SE → PyVal × SE
  | .nil, ck, ms => (ck, ms)
  | .cons sk sv rest, ck, ms =>
      if keyLitEq k sk then (ck, sv)
      else
        match sk with
        | .ty t =>
            let c := coerce_key_to_type k (.ty t)
            if isinstanceTy c t then (c, sv) else ndFields k rest ck ms
        | .ptuple ts =>
            if seAllTy ts then
              match ndTupleScan k ts with
              | some c => ndFields k rest c sv
              | Option.none => ndFields k rest ck ms
            else ndFields k rest ck ms
        | _ => ndFields k rest ck ms

mutual

/-- `helpers.normalize_data` (helpers.py lines 307-408).  Branches in
source order: `Dict[K, V]` over dict data coerces keys and recurses on
values (312-318); `Set[T]` accepts a list or set and raises otherwise
(321-325); `List[T]` requires a list (328-332); `Tuple[...]` converts a
list, requires a tuple, and maps or zips (335-342); an explicit dict
schema over dict data runs the field-matching loop (345-377); a
one-element set schema accepts a list or set (380-384); a one-element
list schema requires a list (387-391); a plain tuple schema converts a
list and zips (or maps for the `(T, Ellipsis)` pair) over whatever the
data yields when iterated, `zip` truncating to the shorter side
(394-399); a bare class is called on the data, failures returning the
data unchanged (402-406); everything else passes through (408).  Python
set construction deduplicates; the model keeps insertion order without
deduplication (no statement below depends on it). -/
def normalize_data : Nat → PyVal → Option SE → Except PyErr PyVal
  | 0, _, _ => .error .fuelOut
  | f + 1, data, schema =>
      match schema, data with
      | some (.dictOf kT vT), .dict ps => do
          let ps2 ← ndDictOf f ps kT vT .nil
          pure (.dict ps2)
      | some (.setOf iT), d =>
          (match d with
           | .list xs => do
               let ys ← ndItems f xs iT
               pure (.set ys)
           | .set xs => do
               let ys ← ndItems f xs iT
               pure (.set ys)
           | _ => .error (.typeError ("[normalize_data] Expected set or list, got " ++ pyRepr d)))
      | some (.listOf iT), d =>
          (match d with
           | .list xs => do
               let ys ← ndItems f xs iT
               pure (.list ys)
           | _ => .error (.typeError ("[normalize_data] Expected list, got " ++ pyRepr d)))
      | some (.tupleOf args), d =>
          (match d with
           | .list xs => do
               let ys ← ndZip f xs args
               pure (.tuple ys)
           | .tuple xs => do
               let ys ← ndZip f xs args
               pure (.tuple ys)
           | _ => .error (.typeError ("[normalize_data] Expected tuple, got " ++ pyRepr d)))
      | some (.tupleVar iT), d =>
          (match d with
           | .list xs => do
               let ys ← ndItems f xs iT
               pure (.tuple ys)
           | .tuple xs => do
               let ys ← ndItems f xs iT
               pure (.tuple ys)
           | _ => .error (.typeError ("[normalize_data] Expected tuple, got " ++ pyRepr d)))
      | some (.pdict fields), .dict ps => do
          let ps2 ← ndPDict f ps fields .nil
          pure (.dict ps2)
      | some (.pset (.cons iT .nil)), d =>
          (match d with
           | .list xs => do
               let ys ← ndItems f xs iT
               pure (.set ys)
           | .set xs => do
               let ys ← ndItems f xs iT
               pure (.set ys)
           | _ => .error (.typeError ("[normalize_data] Expected list or set for set schema, got " ++ pyRepr d)))
      | some (.plist (.cons iT .nil)), d =>
          (match d with
           | .list xs => do
               let ys ← ndItems f xs iT
               pure (.list ys)
           | _ => .error (.typeError ("[normalize_data] Expected list for list schema, got " ++ pyRepr d)))
      | some (.ptupleVar iT), d => do
          let xs ← pyIter d
          let ys ← ndItems f xs iT
          pure (.tuple ys)
      | some (.ptuple items), d => do
          let xs ← pyIter d
          let ys ← ndZip f xs items
          pure (.tuple ys)
      | some (.ty t), d =>
          (match pyCallType t d with
           | .ok v => pure v
           | .error _ => pure d)
      | _, d => pure d

def ndItems : Nat → VList → SE → Except PyErr VList
  | 0, _, _ => .error .fuelOut
  | _ + 1, .nil, _ => pure .nil
  | f + 1, .cons x rest, iT => do
      let y ← normalize_data f x (some iT)
      let ys ← ndItems f rest iT
      pure (.cons y ys)

/-- `zip(data, schema)`, truncating to the shorter side. -/
def ndZip : Nat → VList → SEList → Except PyErr VList
  | 0, _, _ => .error .fuelOut
  | f + 1, .cons x xs, .cons a rest => do
      let y ← normalize_data f x (some a)
      let ys ← ndZip f xs rest
      pure (.cons y ys)
  | _ + 1, _, _ => pure .nil

def ndDictOf : Nat → VPairs → SE → SE → VPairs → Except PyErr VPairs
  | 0, _, _, _, _ => .error .fuelOut
  | _ + 1, .nil, _, _, acc => pure acc
  | f + 1, .cons k v rest, kT, vT, acc => do
      let ck := coerce_key_to_type k kT
      let cv ← normalize_data f v (some vT)
      ndDictOf f rest kT vT (vpairsUpd acc ck cv)

def ndPDict : Nat → VPairs → SEFields → VPairs → Except PyErr VPairs
  | 0, _, _, _ => .error .fuelOut
  | _ + 1, .nil, _, acc => pure acc
  | f + 1, .cons k v rest, fields, acc => do
      let (ck, ms) := ndFields k fields k .any
      let cv ← normalize_data f v (some ms)
      ndPDict f rest fields (vpairsUpd acc ck cv)

end

/-- `Meta.__new__` (meta.py lines 22-46) without the `additional` and
`fill_defaults` options: build the `Schema`, normalize the data against
the stored schema, and wrap.  (The source prints and exits on a wrapping
exception, lines 36-42; the model propagates the error.) -/
def metaNew (fuel : Nat) (data : PyVal) (raw : Option SE) : Except PyErr Node := do
  let s := mkSchema raw Option.none
  let d2 ← normalize_data fuel data s.schema
  wrap_meta_structure (wfuel d2) d2 s

/-- The key-pattern scan of `MetaContainer.resolve_schema` (meta_core.py
lines 240-244): a class pattern first, then a tuple pattern (whose
non-class members raise). -/
def rsTypeScan (key : PyVal) : SEFields → Except PyErr (Option SE)
  | .nil => pure Option.none
  | .cons sk v rest =>
      match sk with
      | .ty t => if isinstanceTy key t then pure (some v) else rsTypeScan key rest
      | .ptuple ts => do
          let b ← anyIsinstance key ts
          if b then pure (some v) else rsTypeScan key rest
      | .ptupleVar t => do
          let b ← anyIsinstanceVar key t
          if b then pure (some v) else rsTypeScan key rest
      | _ => rsTypeScan key rest

/-- `MetaContainer.resolve_schema` (meta_core.py lines 228-260).  The
`_coerce_key_type` call of line 229 is the identity on every wrapped
node, whose stored schema is a `Schema` instance (of `typing` origin
`None`).  The unwrapped schema is consulted: an explicit dict by exact
key then by pattern (234-244; the duplicate loop of lines 253-258 can
only repeat the same failed scan); a `Dict[K, V]` origin yields `V`
(247-250); otherwise `None` (260). -/
def resolve_schema (s : SchemaObj) (key : PyVal) : Except PyErr (Option SE) :=
  match s.schema with
  | some (.pdict fields) =>
      if keyInFields key fields then pure (rskLookupLit key fields)
      else rsTypeScan key fields
  | some (.dictOf _ vT) => pure (some vT)
  | _ => pure Option.none

/-- `str.isnumeric` restricted to decimal digits (the only strings the
statements below use). -/
def strIsNumeric (s : String) : Bool :=
  s != "" && s.data.all Char.isDigit

/-- `MetaContainer.add` for dict nodes (meta_core.py lines 295-303):
an all-numeric string key becomes an int (298-300); the sub-schema for
the key is resolved from the node schema and passed through
`Schema.ensure` — a fresh `Schema` whose `validate` flag comes from the
isinstance heuristic, not from the node (301); the value is wrapped
against it (302) and stored by plain `dict.__setitem__` (303).  The node
content is the entry list; its stored schema is passed alongside. -/
def metaDictAdd (s : SchemaObj) (entries : NEntries) (k v : PyVal) :
    Except PyErr NEntries := do
  let k2 : PyVal :=
    match k with
    | .str st =>
        if strIsNumeric st then
          (match strToIntPy st with
           | some n => .int n
           | Option.none => .str st)
        else .str st
    | x => x
  let rawSub ← resolve_schema s k2
  let resolved := ensure rawSub
  let w ← wrap_meta_structure (wfuel v) v resolved
  pure (neUpd entries k2 w)

mutual

/-- Python hashability of a schema object: plain dicts, lists and sets
are unhashable; a tuple is hashable when its members are; classes,
literals and `typing` objects are hashable. -/
def hashableSE : SE → Bool
  | .pdict _ => false
  | .plist _ => false
  | .pset _ => false
  | .ptuple l => allHashable l
  | .ptupleVar t => hashableSE t
  | _ => true

def allHashable : SEList → Bool
  | .nil => true
  | .cons x xs => hashableSE x && allHashable xs

end

/-- Admissibility of the key parameter of a `Dict[K, V]` expression for
idempotent normalization: when `K` normalizes to a set it must hold at
least two members, all classes (schema.py line 42 sorts it by `__name__`
and a one-member result collapses on the next pass); when it normalizes
to a tuple, likewise at least two hashable members; otherwise the
normalized key must be hashable (Python requires it to key the output
dict). -/
def dictKeyOKGen (k : SE) : Bool :=
  match normalizeSchema k with
  | .pset l => decide (2 ≤ selLen l) && seAllTy l
  | .ptuple l => decide (2 ≤ selLen l) && allHashable l
  | x => hashableSE x

/-- The same admissibility for an explicit-map key (schema.py line 64
sorts a set key by `str`, so its members need only be hashable). -/
def dictKeyOKLit (k : SE) : Bool :=
  match normalizeSchema k with
  | .pset l => decide (2 ≤ selLen l) && allHashable l
  | .ptuple l => decide (2 ≤ selLen l) && allHashable l
  | x => hashableSE x

def hashNormAll : SEList → Bool
  | .nil => true
  | .cons a rest => hashableSE (normalizeSchema a) && hashNormAll rest

mutual

/-- Schema expressions on which normalization behaves tamely: union
members normalize to hashable objects (Python set construction requires
it), and every `Dict[K, V]` key parameter and explicit-map key passes the
key admissibility above — ruling out exactly the singleton set/tuple key
patterns on which normalization is not idempotent. -/
def NormTame : SE → Bool
  | .union args => tameAll args && hashNormAll args
  | .dictOf k v => NormTame k && NormTame v && dictKeyOKGen k
  | .listOf t => NormTame t
  | .setOf t => NormTame t
  | .tupleOf args => tameAll args
  | .tupleVar t => NormTame t
  | .pdict fields => tameFields fields
  | _ => true

def tameAll : SEList → Bool
  | .nil => true
  | .cons a rest => NormTame a && tameAll rest

def tameFields : SEFields → Bool
  | .nil => true
  | .cons k v rest =>
      NormTame k && NormTame v && hashableSE k && dictKeyOKLit k && tameFields rest

end

/-- An output entry of the plain-dict normalization pass that the next
pass maps to itself. -/
def EntryStable (k v : SE) : Prop :=
  collapseKeyLit (normalizeSchema k) = k ∧ normalizeSchema v = v

def FieldsAll (P : SE → SE → Prop) : SEFields → Prop
  | .nil => True
  | .cons k v rest => P k v ∧ FieldsAll P rest

def NotKeyIn (x : SE) : SEFields → Prop
  | .nil => True
  | .cons k _ rest => ¬(k = x) ∧ NotKeyIn x rest

def KeysDistinct : SEFields → Prop
  | .nil => True
  | .cons k _ rest => NotKeyIn k rest ∧ KeysDistinct rest

def KeysFreshIn (acc : SEFields) : SEFields → Prop
  | .nil => True
  | .cons k _ rest => NotKeyIn k acc ∧ KeysFreshIn acc rest

def fappend : SEFields → SEFields → SEFields
  | .nil, ys => ys
  | .cons k v xs, ys => .cons k v (fappend xs ys)

/-- Recognizes the constructors that `_normalize_schema` can output: the
`typing` aliases are always rewritten, everything else can pass through. -/
def normOut : SE → Bool
  | .union _ => false
  | .dictOf _ _ => false
  | .listOf _ => false
  | .setOf _ => false
  | .tupleOf _ => false
  | .tupleVar _ => false
  | _ => true

/-- A declared key pattern whose scan cannot raise: tuple patterns must
contain only classes (a pair with `Ellipsis` always can raise). -/
def patternNoRaise : SE → Bool
  | .ptuple ts => seAllTy ts
  | .ptupleVar _ => false
  | _ => true

def fieldsPatternsOk : SEFields → Bool
  | .nil => true
  | .cons k _ rest => patternNoRaise k && fieldsPatternsOk rest

/-- A data key that matches no declared key pattern of an explicit map
schema: not equal to any literal key and not matching any key type. -/
def keyBad (fields : SEFields) (k : PyVal) : Bool :=
  !keyInFields k fields &&
    (match keyTypeMatch k fields with
     | .ok false => true
     | _ => false)

def vlAny (p : PyVal → Bool) : VList → Bool
  | .nil => false
  | .cons x xs => p x || vlAny p xs

def vlHas (ks : VList) (k : PyVal) : Bool :=
  vlAny (fun x => x == k) ks

/-! Supporting lemmas for the claim theorems. -/

theorem normalizeSchema_eq_noneTy {a : SE} (h : normalizeSchema a = .ty .noneT) :
    a = .ty .noneT := by
  cases a <;> simp_all [normalizeSchema]

theorem seMem_normFiltered_noneTy :
    ∀ (args : SEList), seMem (.ty .noneT) (normFiltered args) = false
  | .nil => rfl
  | .cons a rest => by
      have ih := seMem_normFiltered_noneTy rest
      by_cases ha : isNoneTy a = true
      · simp [normFiltered, ha, ih]
      · simp only [Bool.not_eq_true] at ha
        simp only [normFiltered, ha, if_neg]
        simp only [seMem, ih, Bool.or_false]
        by_cases he : normalizeSchema a = .ty .noneT
        · have := normalizeSchema_eq_noneTy he
          subst this
          simp [isNoneTy] at ha
        · simp only [beq_eq_false_iff_ne, ne_eq]
          exact fun hc => he hc.symm

theorem seMem_dedupSEGo_false {x : SE} :
    ∀ (l seen : SEList), seMem x l = false → seMem x (dedupSEGo seen l) = false
  | .nil, _, _ => rfl
  | .cons a rest, seen, h => by
      simp only [seMem, Bool.or_eq_false_iff] at h
      by_cases hm : seMem a seen = true
      · simp [dedupSEGo, hm, seMem_dedupSEGo_false rest seen h.2]
      · simp only [Bool.not_eq_true] at hm
        simp [dedupSEGo, hm, seMem, h.1,
          seMem_dedupSEGo_false rest (.cons a seen) h.2]

theorem anyIsinstance_allTy (k : PyVal) :
    ∀ (ts : SEList), seAllTy ts = true → ∃ b, anyIsinstance k ts = .ok b
  | .nil, _ => ⟨false, rfl⟩
  | .cons a rest, h => by
      cases a <;> simp [seAllTy] at h
      next t =>
        by_cases hi : isinstanceTy k t = true
        · exact ⟨true, by simp [anyIsinstance, hi]⟩
        · obtain ⟨b, hb⟩ := anyIsinstance_allTy k rest h
          refine ⟨b, ?_⟩
          simp only [Bool.not_eq_true] at hi
          simp [anyIsinstance, hi, hb]

theorem keyTypeMatch_ok (k : PyVal) :
    ∀ (fields : SEFields), fieldsPatternsOk fields = true →
      ∃ b, keyTypeMatch k fields = .ok b
  | .nil, _ => ⟨false, rfl⟩
  | .cons sk v rest, h => by
      have h1 : patternNoRaise sk = true := by
        simpa [fieldsPatternsOk] using (Bool.and_elim_left (by simpa [fieldsPatternsOk] using h))
      have h2 : fieldsPatternsOk rest = true := by
        simpa [fieldsPatternsOk] using (Bool.and_elim_right (by simpa [fieldsPatternsOk] using h))
      obtain ⟨br, hbr⟩ := keyTypeMatch_ok k rest h2
      cases sk
      case ty t =>
        by_cases hi : isinstanceTy k t = true
        · exact ⟨true, by simp [keyTypeMatch, hi]⟩
        · refine ⟨br, ?_⟩
          simp only [Bool.not_eq_true] at hi
          simp [keyTypeMatch, hi, hbr]
      case ptuple ts =>
        have hts : seAllTy ts = true := by simpa [patternNoRaise] using h1
        obtain ⟨b0, hb0⟩ := anyIsinstance_allTy k ts hts
        cases b0
        · exact ⟨br, by simp [keyTypeMatch, hb0, hbr, bind, Except.bind]⟩
        · exact ⟨true, by simp [keyTypeMatch, hb0, bind, Except.bind]⟩
      case ptupleVar t => simp [patternNoRaise] at h1
      all_goals exact ⟨br, by simp [keyTypeMatch, hbr]⟩

theorem keyScan_err (fields : SEFields) (hok : fieldsPatternsOk fields = true) :
    ∀ (ks : VList), vlAny (keyBad fields) ks = true →
      ∃ bad, keyScan fields ks =
          .error (.typeError ("[x] Key " ++ pyRepr bad ++ " not allowed by schema")) ∧
        keyBad fields bad = true
  | .nil, h => by simp [vlAny] at h
  | .cons k rest, h => by
      by_cases hin : keyInFields k fields = true
      · have hbadk : keyBad fields k = false := by simp [keyBad, hin]
        have hrest : vlAny (keyBad fields) rest = true := by
          simpa [vlAny, hbadk] using h
        obtain ⟨bad, h1, h2⟩ := keyScan_err fields hok rest hrest
        exact ⟨bad, by simp [keyScan, hin, h1], h2⟩
      · simp only [Bool.not_eq_true] at hin
        obtain ⟨b, hb⟩ := keyTypeMatch_ok k fields hok
        cases b
        · refine ⟨k, ?_, ?_⟩
          · simp [keyScan, hin, hb, bind, Except.bind]
          · simp [keyBad, hin, hb]
        · have hbadk : keyBad fields k = false := by simp [keyBad, hin, hb]
          have hrest : vlAny (keyBad fields) rest = true := by
            simpa [vlAny, hbadk] using h
          obtain ⟨bad, h1, h2⟩ := keyScan_err fields hok rest hrest
          exact ⟨bad, by simp [keyScan, hin, hb, h1, bind, Except.bind], h2⟩

theorem vlAny_of_has (p : PyVal → Bool) :
    ∀ (ks : VList) (k : PyVal), vlHas ks k = true → p k = true → vlAny p ks = true
  | .cons x xs, k, h, hp => by
      simp only [vlHas, vlAny, Bool.or_eq_true] at h
      rcases h with h | h
      · have hx : x = k := eq_of_beq h
        subst hx
        simp [vlAny, hp]
      · simp [vlAny, vlAny_of_has p xs k (by simpa [vlHas] using h) hp]

theorem resolve_from_permissive (b : Option SE) (val : Bool) (k : PyVal) (lvl : Nat)
    (h : b = Option.none ∨ b = some SE.any) :
    resolve_from ⟨b, val⟩ k lvl = .ok ⟨some .any, val⟩ := by
  rcases h with h | h <;> subst h <;> rfl

theorem vlScalar_sets_hashable : ∀ xs, vlScalarHash xs = true → vlSetsHashable xs = true
  | .nil, _ => rfl
  | .cons x rest, h => by
      simp only [vlScalarHash, Bool.and_eq_true] at h
      simp only [vlSetsHashable, Bool.and_eq_true]
      refine ⟨?_, vlScalar_sets_hashable rest h.2⟩
      cases x <;> simp_all [scalarHash, vSetsHashable]

mutual

/-- Wrapping never fails under a missing (or `Any`) schema with the
`_validate` flag unset, provided every set inside the value holds only
hashable scalars: every validator is a no-op, every resolved sub-schema
is again the permissive `Any` with the flag unset, and the only remaining
error path — hashing the wrapped members of a set — is ruled out by the
hypothesis.  A scalar value wraps to a hashable node. -/
theorem wrap_permissive_ok :
    ∀ (f : Nat) (v : PyVal) (b : Option SE),
      (b = Option.none ∨ b = some SE.any) → sizeV v < f → vSetsHashable v = true →
      ∃ n, wrap_meta_structure f v ⟨b, false⟩ = .ok n ∧
        (scalarHash v = true → nodeHashable n = true)
  | f + 1, .bool c, b, _, _, _ => ⟨.mbool c, rfl, fun _ => rfl⟩
  | f + 1, .int i, b, _, _, _ => ⟨.mint i, rfl, fun _ => rfl⟩
  | f + 1, .float x, b, _, _, _ => ⟨.mfloat x, rfl, fun _ => rfl⟩
  | f + 1, .str st, b, _, _, _ => ⟨.mstr st, rfl, fun _ => rfl⟩
  | f + 1, .none, b, _, _, _ => ⟨.mnone, rfl, fun h => by simp [scalarHash] at h⟩
  | f + 1, .dict ps, b, hb, hf, hsh => by
      have hps : sizeVP ps < f := by simp [sizeV] at hf; omega
      have hsp : vpSetsHashable ps = true := by simpa [vSetsHashable] using hsh
      obtain ⟨es, he⟩ := wrapEntries_permissive_ok f ps b .nil hb hps hsp
      refine ⟨.mdict es, ?_, fun h => by simp [scalarHash] at h⟩
      rcases hb with hb | hb <;> subst hb <;>
        simp [wrap_meta_structure, coerce_dict_keys_mc, he, runNodeValidator,
          bind, Except.bind, pure, Except.pure]
  | f + 1, .list xs, b, hb, hf, hsh => by
      have hxs : sizeVL xs < f := by simp [sizeV] at hf; omega
      have hsl : vlSetsHashable xs = true := by simpa [vSetsHashable] using hsh
      obtain ⟨ns, hn, _⟩ := wrapItems_permissive_ok f xs hxs hsl
      refine ⟨.mlist ns, ?_, fun h => by simp [scalarHash] at h⟩
      rcases hb with hb | hb <;> subst hb <;>
        simp [wrap_meta_structure, resolve_from, mkSchema, isFalsySE, normalizeSchema,
          hn, runNodeValidator, bind, Except.bind, pure, Except.pure]
  | f + 1, .tuple xs, b, hb, hf, hsh => by
      have hxs : sizeVL xs < f := by simp [sizeV] at hf; omega
      have hsl : vlSetsHashable xs = true := by simpa [vSetsHashable] using hsh
      obtain ⟨ns, hn, _⟩ := wrapItems_permissive_ok f xs hxs hsl
      refine ⟨.mtuple .nil, ?_, fun h => by simp [scalarHash] at h⟩
      rcases hb with hb | hb <;> subst hb <;>
        simp [wrap_meta_structure, resolve_from, mkSchema, isFalsySE, normalizeSchema,
          hn, runNodeValidator, bind, Except.bind, pure, Except.pure]
  | f + 1, .set xs, b, hb, hf, hsh => by
      have hxs : sizeVL xs < f := by simp [sizeV] at hf; omega
      have hsc : vlScalarHash xs = true := by simpa [vSetsHashable] using hsh
      obtain ⟨ns, hn, hnh⟩ :=
        wrapItems_permissive_ok f xs hxs (vlScalar_sets_hashable xs hsc)
      have hall : nlAllHashable ns = true := hnh hsc
      refine ⟨.mset (setAddAll .nil ns), ?_, fun h => by simp [scalarHash] at h⟩
      rcases hb with hb | hb <;> subst hb <;>
        simp [wrap_meta_structure, resolve_from, mkSchema, isFalsySE, normalizeSchema,
          hn, hall, runNodeValidator, bind, Except.bind, pure, Except.pure]

theorem wrapItems_permissive_ok :
    ∀ (f : Nat) (xs : VList), sizeVL xs < f → vlSetsHashable xs = true →
      ∃ ns, wrapItems f xs ⟨some SE.any, false⟩ = .ok ns ∧
        (vlScalarHash xs = true → nlAllHashable ns = true)
  | _ + 1, .nil, _, _ => ⟨.nil, rfl, fun _ => rfl⟩
  | f + 1, .cons x rest, hf, hsh => by
      have hx : sizeV x < f := by simp [sizeVL] at hf; omega
      have hr : sizeVL rest < f := by simp [sizeVL] at hf; omega
      have hs2 : vSetsHashable x = true ∧ vlSetsHashable rest = true := by
        simpa [vlSetsHashable, Bool.and_eq_true] using hsh
      obtain ⟨n, hn, hnh⟩ := wrap_permissive_ok f x (some SE.any) (Or.inr rfl) hx hs2.1
      obtain ⟨ns, hns, hnsh⟩ := wrapItems_permissive_ok f rest hr hs2.2
      refine ⟨.cons n ns,
        by simp [wrapItems, hn, hns, bind, Except.bind, pure, Except.pure], ?_⟩
      intro h
      have h2 : scalarHash x = true ∧ vlScalarHash rest = true := by
        simpa [vlScalarHash, Bool.and_eq_true] using h
      simp [nlAllHashable, hnh h2.1, hnsh h2.2]

theorem wrapEntries_permissive_ok :
    ∀ (f : Nat) (ps : VPairs) (b : Option SE) (acc : NEntries),
      (b = Option.none ∨ b = some SE.any) → sizeVP ps < f → vpSetsHashable ps = true →
      ∃ es, wrapEntries f ps ⟨b, false⟩ acc = .ok es
  | _ + 1, .nil, b, acc, _, _, _ => ⟨acc, rfl⟩
  | f + 1, .cons k v rest, b, acc, hb, hf, hsh => by
      have hv : sizeV v < f := by simp [sizeVP] at hf; omega
      have hr : sizeVP rest < f := by simp [sizeVP] at hf; omega
      have hs2 : vSetsHashable v = true ∧ vpSetsHashable rest = true := by
        simpa [vpSetsHashable, Bool.and_eq_true] using hsh
      obtain ⟨n, hn, _⟩ := wrap_permissive_ok f v (some SE.any) (Or.inr rfl) hv hs2.1
      obtain ⟨es, hes⟩ :=
        wrapEntries_permissive_ok f rest b (neUpd acc (coerce_key ⟨b, false⟩ k) n) hb hr hs2.2
      refine ⟨es, ?_⟩
      have hrf := resolve_from_permissive b false (coerce_key ⟨b, false⟩ k) 0 hb
      simp [wrapEntries, hrf, hn, hes, bind, Except.bind]

end

/-! Claim theorems. -/

/-- C1: the round-trip property fails on the code.  The tuple `(1, 2)`
validates against the descriptor `Any` (with an `Any` schema the `Schema`
heuristic of line 22 builds a `NoOpValidator`, and the spec declares `Any`
to match anything), yet wrapping it yields the *empty* tuple node —
`MetaTuple.__new__` reads `get_args` off the `Schema` instance, always
`()`, and zips the data away — so `to_native(wrap(x, d))` is `()`, not
`x`. -/
theorem c1_roundtrip_fails_on_tuples :
    wrap_meta_structure 20 (.tuple (.ofList [.int 1, .int 2]))
        (mkSchema (some .any) Option.none) = .ok (.mtuple .nil) ∧
      to_native (.mtuple .nil) = .tuple .nil ∧
      to_native (.mtuple .nil) ≠ .tuple (.ofList [.int 1, .int 2]) := by
  refine ⟨rfl, rfl, ?_⟩
  decide

/-- C2 counterexample: normalization is not idempotent.  For
`Dict[Union[int, None], str]` the first pass produces the key pattern
`(int,)` (a one-element tuple, schema.py lines 40-44 do not collapse),
and the second pass collapses that key to the bare class `int`
(schema.py lines 62-66). -/
theorem c2_normalize_not_idempotent :
    normalizeSchema (normalizeSchema
        (.dictOf (.union (.ofList [.ty .int, .ty .noneT])) (.ty .str))) ≠
      normalizeSchema (.dictOf (.union (.ofList [.ty .int, .ty .noneT])) (.ty .str)) := by
  decide

theorem fappend_nil : ∀ acc : SEFields, fappend acc .nil = acc
  | .nil => rfl
  | .cons k v xs => by simp [fappend, fappend_nil xs]

theorem fappend_cons_right : ∀ (acc : SEFields) (k v : SE) (rest : SEFields),
    fappend (fappend acc (.cons k v .nil)) rest = fappend acc (.cons k v rest)
  | .nil, _, _, _ => rfl
  | .cons a b xs, k, v, rest => by
      simp [fappend, fappend_cons_right xs k v rest]

theorem pdictUpd_fresh : ∀ (acc : SEFields) (k v : SE), NotKeyIn k acc →
    pdictUpd acc k v = fappend acc (.cons k v .nil)
  | .nil, _, _, _ => rfl
  | .cons a b xs, k, v, h => by
      have h1 : ¬(a = k) := h.1
      simp [pdictUpd, fappend, beq_iff_eq, h1, pdictUpd_fresh xs k v h.2]

theorem notKeyIn_pdictUpd : ∀ (acc : SEFields) (x k v : SE),
    NotKeyIn x acc → ¬(k = x) → NotKeyIn x (pdictUpd acc k v)
  | .nil, x, k, v, _, hk => ⟨hk, trivial⟩
  | .cons a b xs, x, k, v, h, hk => by
      by_cases hak : a = k
      · simp only [pdictUpd, beq_iff_eq, hak, if_pos rfl]
        exact ⟨hak ▸ h.1, h.2⟩
      · simp only [pdictUpd, beq_iff_eq, if_neg hak]
        exact ⟨h.1, notKeyIn_pdictUpd xs x k v h.2 hk⟩

theorem pdictUpd_distinct : ∀ (acc : SEFields) (k v : SE),
    KeysDistinct acc → KeysDistinct (pdictUpd acc k v)
  | .nil, _, _, _ => ⟨trivial, trivial⟩
  | .cons a b xs, k, v, h => by
      by_cases hak : a = k
      · simp only [pdictUpd, beq_iff_eq, hak, if_pos rfl]
        exact ⟨hak ▸ h.1, h.2⟩
      · simp only [pdictUpd, beq_iff_eq, if_neg hak]
        exact ⟨notKeyIn_pdictUpd xs a k v h.1 (fun he => hak he.symm),
          pdictUpd_distinct xs k v h.2⟩

theorem pdictUpd_all (P : SE → SE → Prop) : ∀ (acc : SEFields) (k v : SE),
    FieldsAll P acc → P k v → FieldsAll P (pdictUpd acc k v)
  | .nil, _, _, _, hp => ⟨hp, trivial⟩
  | .cons a b xs, k, v, h, hp => by
      by_cases hak : a = k
      · simp only [pdictUpd, beq_iff_eq, hak, if_pos rfl]
        exact ⟨hp, h.2⟩
      · simp only [pdictUpd, beq_iff_eq, if_neg hak]
        exact ⟨h.1, pdictUpd_all P xs k v h.2 hp⟩

theorem normFields_all : ∀ (fields acc : SEFields),
    FieldsAll (fun k v =>
      EntryStable (collapseKeyLit (normalizeSchema k)) (normalizeSchema v)) fields →
    FieldsAll EntryStable acc → FieldsAll EntryStable (normFields fields acc)
  | .nil, _, _, hacc => hacc
  | .cons _ _ rest, acc, hf, hacc =>
      normFields_all rest _ hf.2 (pdictUpd_all EntryStable acc _ _ hacc hf.1)

theorem normFields_distinct : ∀ (fields acc : SEFields),
    KeysDistinct acc → KeysDistinct (normFields fields acc)
  | .nil, _, h => h
  | .cons _ _ rest, acc, h => normFields_distinct rest _ (pdictUpd_distinct acc _ _ h)

theorem notKeyIn_fappend_single : ∀ (acc : SEFields) (x k v : SE),
    NotKeyIn x acc → ¬(k = x) → NotKeyIn x (fappend acc (.cons k v .nil))
  | .nil, _, _, _, _, hk => ⟨hk, trivial⟩
  | .cons _ _ xs, x, k, v, h, hk => ⟨h.1, notKeyIn_fappend_single xs x k v h.2 hk⟩

theorem keysFreshIn_step : ∀ (rest acc : SEFields) (k v : SE),
    KeysFreshIn acc rest → NotKeyIn k rest →
    KeysFreshIn (fappend acc (.cons k v .nil)) rest
  | .nil, _, _, _, _, _ => trivial
  | .cons a _ r2, acc, k, v, hf, hn =>
      ⟨notKeyIn_fappend_single acc a k v hf.1 (fun he => hn.1 he.symm),
        keysFreshIn_step r2 acc k v hf.2 hn.2⟩

theorem keysFreshIn_nil : ∀ L : SEFields, KeysFreshIn .nil L
  | .nil => trivial
  | .cons _ _ r => ⟨trivial, keysFreshIn_nil r⟩

theorem normFields_id : ∀ (L acc : SEFields),
    FieldsAll EntryStable L → KeysDistinct L → KeysFreshIn acc L →
    normFields L acc = fappend acc L
  | .nil, acc, _, _, _ => (fappend_nil acc).symm
  | .cons k v rest, acc, hs, hd, hf => by
      have step : pdictUpd acc (collapseKeyLit (normalizeSchema k)) (normalizeSchema v)
          = fappend acc (.cons k v .nil) := by
        rw [hs.1.1, hs.1.2]; exact pdictUpd_fresh acc k v hf.1
      calc normFields (.cons k v rest) acc
          = normFields rest
              (pdictUpd acc (collapseKeyLit (normalizeSchema k)) (normalizeSchema v)) := rfl
        _ = normFields rest (fappend acc (.cons k v .nil)) := by rw [step]
        _ = fappend (fappend acc (.cons k v .nil)) rest :=
              normFields_id rest _ hs.2 hd.2 (keysFreshIn_step rest acc k v hf.2 hd.1)
        _ = fappend acc (.cons k v rest) := fappend_cons_right acc k v rest

theorem insertSorted_len (f : SE → String) (x : SE) :
    ∀ l, selLen (insertSorted f x l) = selLen l + 1
  | .nil => rfl
  | .cons y ys => by
      simp only [insertSorted]
      split
      · simp only [selLen, insertSorted_len f x ys]
      · simp only [selLen]

theorem sortByKey_len (f : SE → String) : ∀ l, selLen (sortByKey f l) = selLen l
  | .nil => rfl
  | .cons x xs => by
      simp only [sortByKey, selLen, insertSorted_len, sortByKey_len f xs]

theorem selLen_two_shape : ∀ (l : SEList), 2 ≤ selLen l →
    ∃ a b r, l = SEList.cons a (SEList.cons b r)
  | .nil, h => absurd h (by simp only [selLen]; omega)
  | .cons _ .nil, h => absurd h (by simp only [selLen]; omega)
  | .cons a (.cons b r), _ => ⟨a, b, r, rfl⟩

theorem collapseKeyLit_ptuple_two (l : SEList) (h2 : 2 ≤ selLen l) :
    collapseKeyLit (.ptuple l) = .ptuple l := by
  obtain ⟨a, b, r, rfl⟩ := selLen_two_shape l h2
  rfl

theorem collapseKeyLit_pset_two (l : SEList) (h2 : 2 ≤ selLen l) :
    collapseKeyLit (.pset l) = .ptuple (sortByKey seStr l) := by
  have hc : collapseKeyLit (SE.pset l) = collapseKeyLit (.ptuple (sortByKey seStr l)) := rfl
  rw [hc]
  exact collapseKeyLit_ptuple_two _ (by rw [sortByKey_len]; exact h2)

theorem norm_ptuple (l : SEList) : normalizeSchema (.ptuple l) = .ptuple l := rfl

theorem normOut_norm : ∀ s : SE, normOut (normalizeSchema s) = true := by
  intro s; cases s <;> rfl

theorem key_stable_gen (k : SE) (h : dictKeyOKGen k = true) :
    collapseKeyLit (normalizeSchema (collapseKeyGen (normalizeSchema k))) =
      collapseKeyGen (normalizeSchema k) := by
  have hout := normOut_norm k
  unfold dictKeyOKGen at h
  cases hnk : normalizeSchema k <;> rw [hnk] at h hout
  case union => simp [normOut] at hout
  case dictOf => simp [normOut] at hout
  case listOf => simp [normOut] at hout
  case setOf => simp [normOut] at hout
  case tupleOf => simp [normOut] at hout
  case tupleVar => simp [normOut] at hout
  case pdict => simp [hashableSE] at h
  case plist => simp [hashableSE] at h
  case any => rfl
  case ty => rfl
  case slit => rfl
  case ilit => rfl
  case blit => rfl
  case ptupleVar => rfl
  case pset l =>
    simp only [Bool.and_eq_true, decide_eq_true_eq] at h
    show collapseKeyLit (normalizeSchema (.ptuple (sortByKey nameKey l))) =
      SE.ptuple (sortByKey nameKey l)
    rw [norm_ptuple]
    exact collapseKeyLit_ptuple_two _ (by rw [sortByKey_len]; exact h.1)
  case ptuple l =>
    simp only [Bool.and_eq_true, decide_eq_true_eq] at h
    show collapseKeyLit (normalizeSchema (SE.ptuple l)) = SE.ptuple l
    rw [norm_ptuple]
    exact collapseKeyLit_ptuple_two _ h.1

theorem key_stable_lit (k : SE) (h : dictKeyOKLit k = true) :
    collapseKeyLit (normalizeSchema (collapseKeyLit (normalizeSchema k))) =
      collapseKeyLit (normalizeSchema k) := by
  have hout := normOut_norm k
  unfold dictKeyOKLit at h
  cases hnk : normalizeSchema k <;> rw [hnk] at h hout
  case union => simp [normOut] at hout
  case dictOf => simp [normOut] at hout
  case listOf => simp [normOut] at hout
  case setOf => simp [normOut] at hout
  case tupleOf => simp [normOut] at hout
  case tupleVar => simp [normOut] at hout
  case pdict => simp [hashableSE] at h
  case plist => simp [hashableSE] at h
  case any => rfl
  case ty => rfl
  case slit => rfl
  case ilit => rfl
  case blit => rfl
  case ptupleVar => rfl
  case pset l =>
    simp only [Bool.and_eq_true, decide_eq_true_eq] at h
    rw [collapseKeyLit_pset_two l h.1, norm_ptuple]
    exact collapseKeyLit_ptuple_two _ (by rw [sortByKey_len]; exact h.1)
  case ptuple l =>
    simp only [Bool.and_eq_true, decide_eq_true_eq] at h
    rw [collapseKeyLit_ptuple_two l h.1, norm_ptuple]
    exact collapseKeyLit_ptuple_two _ h.1

mutual

theorem nt_idem : ∀ (d : SE), NormTame d = true →
    normalizeSchema (normalizeSchema d) = normalizeSchema d
  | .any, _ => rfl
  | .ty _, _ => rfl
  | .slit _, _ => rfl
  | .ilit _, _ => rfl
  | .blit _, _ => rfl
  | .plist _, _ => rfl
  | .pset _, _ => rfl
  | .ptuple _, _ => rfl
  | .ptupleVar _, _ => rfl
  | .union _, _ => rfl
  | .listOf _, _ => rfl
  | .setOf _, _ => rfl
  | .tupleOf _, _ => rfl
  | .tupleVar _, _ => rfl
  | .dictOf k v, h => by
      have h2 : NormTame k = true ∧ NormTame v = true ∧ dictKeyOKGen k = true := by
        simp only [NormTame, Bool.and_eq_true] at h
        exact ⟨h.1.1, h.1.2, h.2⟩
      show SE.pdict (.cons
            (collapseKeyLit (normalizeSchema (collapseKeyGen (normalizeSchema k))))
            (normalizeSchema (normalizeSchema v)) .nil)
          = SE.pdict (.cons (collapseKeyGen (normalizeSchema k)) (normalizeSchema v) .nil)
      rw [key_stable_gen k h2.2.2, nt_idem v h2.2.1]
  | .pdict fields, h => by
      have hf : tameFields fields = true := by simpa [NormTame] using h
      have hid := normFields_id (normFields fields .nil) .nil
        (normFields_all fields .nil (nt_fields_pre fields hf) trivial)
        (normFields_distinct fields .nil trivial)
        (keysFreshIn_nil _)
      show SE.pdict (normFields (normFields fields .nil) .nil)
          = SE.pdict (normFields fields .nil)
      rw [hid]
      rfl

theorem nt_fields_pre : ∀ (fields : SEFields), tameFields fields = true →
    FieldsAll (fun k v =>
      EntryStable (collapseKeyLit (normalizeSchema k)) (normalizeSchema v)) fields
  | .nil, _ => trivial
  | .cons k v rest, h => by
      have hp : NormTame k = true ∧ NormTame v = true ∧ hashableSE k = true ∧
          dictKeyOKLit k = true ∧ tameFields rest = true := by
        simp only [tameFields, Bool.and_eq_true] at h
        exact ⟨h.1.1.1.1, h.1.1.1.2, h.1.1.2, h.1.2, h.2⟩
      exact ⟨⟨key_stable_lit k hp.2.2.2.1, nt_idem v hp.2.1⟩,
        nt_fields_pre rest hp.2.2.2.2⟩

end

/-- C2 (amended): normalization is idempotent on every tame schema
expression — one in which each union member normalizes to a hashable
object and each `Dict[K, V]` key parameter and explicit-map key
normalizes to a hashable pattern that, when it is a set or tuple, has at
least two members (`NormTame`).  The tameness bound is exactly what the
counterexample violates: a key whose normal form is a one-member set or
tuple is emitted as a one-element tuple key by the first pass
(schema.py lines 40-44) and collapsed to its element by the second
(lines 62-66). -/
theorem c2_normalize_idempotent_on_tame (d : SE) (h : NormTame d = true) :
    normalizeSchema (normalizeSchema d) = normalizeSchema d :=
  nt_idem d h

theorem c2_normalize_idempotent_witness :
    NormTame (.pdict (.cons (.slit "name") (.ty .str)
        (.cons (.union (.ofList [.ty .int, .ty .str])) (.ty .bool) .nil))) = true ∧
      normalizeSchema (normalizeSchema (.pdict (.cons (.slit "name") (.ty .str)
          (.cons (.union (.ofList [.ty .int, .ty .str])) (.ty .bool) .nil)))) =
        normalizeSchema (.pdict (.cons (.slit "name") (.ty .str)
          (.cons (.union (.ofList [.ty .int, .ty .str])) (.ty .bool) .nil))) :=
  ⟨by decide, c2_normalize_idempotent_on_tame _ (by decide)⟩

/-- C4 counterexample: normalizing `Union[int, None]` does not collapse to
the `int` descriptor; it yields the one-element Python set containing the
class `int` (which downstream code reads as a set-of descriptor, not as
the member). -/
theorem c4_singleton_union_not_collapsed :
    normalizeSchema (.union (.ofList [.ty .int, .ty .noneT])) =
        .pset (.ofList [.ty .int]) ∧
      normalizeSchema (.union (.ofList [.ty .int, .ty .noneT])) ≠ .ty .int := by
  exact ⟨rfl, by decide⟩

/-- C3: explicit maps are closed-world.  Validating a map against an
explicit-map descriptor fails with the key-not-allowed `TypeError`
whenever the map holds a key that equals no declared literal key and
matches no declared key type — whatever that key maps to, since the scan
of schema_validator.py lines 298-314 never looks at values and runs
before any value validation.  The descriptor side assumes only that its
tuple key-patterns hold classes (otherwise the scan itself raises a
different `TypeError`); the error reports the first offending key. -/
theorem c3_closed_world_maps (fields : SEFields) (ps : VPairs) (f : Nat) (k : PyVal)
    (hok : fieldsPatternsOk fields = true)
    (hmem : vlHas (vpKeys ps) k = true)
    (hbad : keyBad fields k = true) :
    ∃ bad, validate_all (f + 1) (some (.pdict fields)) (.native (.dict ps)) =
        .error (.typeError ("[x] Key " ++ pyRepr bad ++ " not allowed by schema")) ∧
      keyBad fields bad = true := by
  have hany := vlAny_of_has (keyBad fields) (vpKeys ps) k hmem hbad
  obtain ⟨bad, h1, h2⟩ := keyScan_err fields hok (vpKeys ps) hany
  refine ⟨bad, ?_, h2⟩
  simp [validate_all, dataKeys, h1, bind, Except.bind]

/-- C3 witness: the schema of a single literal field rejects the map
holding the extra key. -/
theorem c3_closed_world_witness :
    validate_all 5 (some (.pdict (.ofList [(.slit "name", .ty .str)])))
        (.native (.dict (.ofList [(.str "name", .str "x"), (.str "extra", .int 1)]))) =
      .error (.typeError "[x] Key str extra not allowed by schema") := by
  obtain ⟨_bad, _h1, _h2⟩ := c3_closed_world_maps
    (.ofList [(.slit "name", .ty .str)])
    (.ofList [(.str "name", .str "x"), (.str "extra", .int 1)]) 4 (.str "extra")
    rfl rfl rfl
  rfl

/-- C4 amended: normalizing a sum-type expression strips `type(None)`
members — the class `NoneType` is never among the members of the
resulting set — but when exactly one member remains the result is the
one-element Python set holding that member, not the member itself. -/
theorem c4_union_strips_null_keeps_singleton_set :
    (∀ (args : SEList) (l : SEList),
        normalizeSchema (.union args) = .pset l → seMem (.ty .noneT) l = false) ∧
      (∀ (args : SEList) (m : SE),
        dedupSE (normFiltered args) = .cons m .nil →
        normalizeSchema (.union args) = .pset (.cons m .nil)) := by
  constructor
  · intro args l h
    have h2 : l = dedupSE (normFiltered args) := by
      simpa [normalizeSchema] using h.symm
    subst h2
    exact seMem_dedupSEGo_false (normFiltered args) .nil
      (seMem_normFiltered_noneTy args)
  · intro args m h
    simp [normalizeSchema, dedupSE] at h ⊢
    simpa [dedupSE] using h

/-- C4 witness: the amended statement at `Union[int, None]`. -/
theorem c4_union_strips_null_witness :
    seMem (.ty .noneT) (.ofList [.ty .int]) = false ∧
      normalizeSchema (.union (.ofList [.ty .int, .ty .noneT])) =
        .pset (.cons (.ty .int) .nil) :=
  ⟨c4_union_strips_null_keeps_singleton_set.1
      (.ofList [.ty .int, .ty .noneT]) (.ofList [.ty .int]) rfl,
    c4_union_strips_null_keeps_singleton_set.2
      (.ofList [.ty .int, .ty .noneT]) (.ty .int) rfl⟩

/-- C5 counterexample: on the sequence descriptor `[int]`, resolving index
`1` does not return the item descriptor `int`; `list(schema)[1]` raises
`IndexError`, which falls through to the `Any` fallback (schema.py lines
119-123, 131-133). -/
theorem c5_resolve_index_one_falls_to_any :
    resolve_from (mkSchema (some (.plist (.ofList [.ty .int]))) Option.none)
        (.int 1) 0 = .ok ⟨some .any, true⟩ ∧
      (⟨some .any, true⟩ : SchemaObj) ≠ ⟨some (.ty .int), true⟩ := by
  exact ⟨rfl, by decide⟩

/-- C5 amended: on a sequence or set descriptor, resolution returns the
item descriptor only for an integer (or boolean) key that indexes into
the one-element schema list under Python index semantics — index `0`, or
`-1` counting from the back — and every other key or index falls back to
the permissive `Any` descriptor without raising; the resulting
sub-`Schema` carries the parent `_validate` flag. -/
theorem c5_resolve_item_characterization :
    (∀ (items : SEList) (b : Bool) (key : PyVal) (lvl : Nat),
        resolve_from ⟨some (.plist items), b⟩ key lvl =
          .ok (mkSchema (some (match asIndex key with
            | some i => (pyIndex items i).getD .any
            | Option.none => .any)) (some b))) ∧
      (∀ (items : SEList) (b : Bool) (key : PyVal) (lvl : Nat),
        resolve_from ⟨some (.pset items), b⟩ key lvl =
          .ok (mkSchema (some (match asIndex key with
            | some i => (pyIndex items i).getD .any
            | Option.none => .any)) (some b))) := by
  constructor <;>
    · intro items b key lvl
      cases hk : asIndex key with
      | none => simp [resolve_from, hk, pure, Except.pure, bind, Except.bind]
      | some i =>
          cases hi : pyIndex items i with
          | none => simp [resolve_from, hk, hi, pure, Except.pure, bind, Except.bind]
          | some x => simp [resolve_from, hk, hi, pure, Except.pure, bind, Except.bind]

/-- C6 counterexample: branch resolution for an empty sequence does not
select the first sequence-shaped branch.  Against
`Union[Set[int], List[int]]` the empty list is claimed by the *set*
branch: the empty-container checks skip it (the value is not a set), but
the inner re-validation scan of pass 1 (schema_validator.py lines
182-187) validates `[]` against `Set[int]` — `_validate_native` merely
iterates, so an empty list satisfies a `Set` origin — and returns the set
branch before the list branch is ever reached. -/
theorem c6_empty_list_selects_set_branch :
    resolve_union_branch 50 (.list .nil)
        (.ofList [.setOf (.ty .int), .listOf (.ty .int)]) =
        .ok (.setOf (.ty .int)) ∧
      (SE.setOf (.ty .int)) ≠ .listOf (.ty .int) := by
  exact ⟨rfl, by decide⟩

/-- C6 amended: when the first branch of the sum is itself sequence-shaped,
an empty sequence is accepted at once and that first branch is selected,
whatever the remaining branches are (schema_validator.py lines 169-175);
in general the resolver returns the first branch whose empty-container
check or full validation accepts the empty sequence, which an earlier
set-shaped branch can be (see the counterexample) — and an empty
sequence need not validate at all against a sum holding a sequence-shaped
branch: an earlier map-shaped branch makes the pass-1 inner scan call
`.items()` on the list, raising an `AttributeError` (schema_validator.py
lines 38-44) that the resolver's `except TypeError` (lines 185-187) does
not swallow, as for `[]` against `Union[Dict[str, int], List[int]]`. -/
theorem c6_empty_list_first_sequence_branch :
    (∀ (t : SE) (rest : SEList) (f : Nat),
        resolve_union_branch (f + 2) (.list .nil) (.cons (.listOf t) rest) =
          .ok (.listOf t)) ∧
      resolve_union_branch 50 (.list .nil)
          (.ofList [.dictOf (.ty .str) (.ty .int), .listOf (.ty .int)]) =
        .error (.attributeError "object has no attribute items") := by
  exact ⟨fun t rest f => rfl, rfl⟩

/-- C7: through the construction pipeline (`Meta.__new__`: normalize the
data against the stored schema, then wrap), the input map with text key
`"1"` against the descriptor `{int: str}` produces a map node whose sole
key is the integer `1`: `normalize_data` coerces the key while matching
the `int` key pattern (helpers.py lines 356-362), and wrapping then
resolves the value schema `str` for it. -/
theorem c7_key_coercion_in_pipeline :
    metaNew 50 (.dict (.ofList [(.str "1", .str "a")]))
        (some (.dictOf (.ty .int) (.ty .str))) =
      .ok (.mdict (.ofList [(.int 1, .mstr "a")])) := by
  rfl

/-- C8 counterexample: the default for the fixed-tuple descriptor
`(int, str)` is not the empty tuple: `helpers.get_default_from_type`
returns the default of the *first element* (its tuple-container branches
are dead code behind line 151), and
`meta_core.get_default_value_from_type` returns `None`. -/
theorem c8_tuple_default_not_empty :
    get_default_from_type (.ptuple (.ofList [.ty .int, .ty .str])) = .ok (.int 0) ∧
      get_default_value_from_type (.ptuple (.ofList [.ty .int, .ty .str])) = .none ∧
      (PyVal.int 0) ≠ .tuple .nil ∧ (PyVal.none) ≠ .tuple .nil := by
  exact ⟨rfl, rfl, by decide, by decide⟩

/-- C8 amended: the actual default table of the two default functions over
canonical descriptors.  Map, sequence and set descriptors give the empty
container and scalars their zero value in both functions; `Any` and
literals give `None`; but a fixed-tuple descriptor gives the default of
its first element in `helpers.get_default_from_type` (an empty tuple
raising `IndexError`) and `None` in
`meta_core.get_default_value_from_type`; a normalized sum (a Python set)
is indistinguishable from a set descriptor and gives the empty set in
both; and a `typing` union gives the default of its first
non-`NoneType` branch only in the meta_core function, the helpers one
giving `None`. -/
theorem c8_default_table :
    (∀ fs, get_default_from_type (.pdict fs) = .ok (.dict .nil)) ∧
      (∀ its, get_default_from_type (.plist its) = .ok (.list .nil)) ∧
      (∀ its, get_default_from_type (.pset its) = .ok (.set .nil)) ∧
      get_default_from_type (.ty .int) = .ok (.int 0) ∧
      get_default_from_type (.ty .float) = .ok (.float 0) ∧
      get_default_from_type (.ty .str) = .ok (.str "") ∧
      get_default_from_type (.ty .bool) = .ok (.bool false) ∧
      get_default_from_type (.ty .noneT) = .ok .none ∧
      get_default_from_type .any = .ok .none ∧
      (∀ args, get_default_from_type (.union args) = .ok .none) ∧
      (∀ x rest, get_default_from_type (.ptuple (.cons x rest)) =
        get_default_from_type x) ∧
      get_default_from_type (.ptuple .nil) =
        .error (.indexError "tuple index out of range") ∧
      (∀ fs, get_default_value_from_type (.pdict fs) = .dict .nil) ∧
      (∀ its, get_default_value_from_type (.plist its) = .list .nil) ∧
      (∀ its, get_default_value_from_type (.pset its) = .set .nil) ∧
      get_default_value_from_type (.ty .int) = .int 0 ∧
      get_default_value_from_type (.ty .str) = .str "" ∧
      get_default_value_from_type .any = .none ∧
      (∀ its, get_default_value_from_type (.ptuple its) = .none) ∧
      (∀ t, get_default_value_from_type (.ptupleVar t) = .none) ∧
      (∀ args, get_default_value_from_type (.union args) = defaultFirstNonNone args) ∧
      (∀ a rest, defaultFirstNonNone (.cons a rest) =
        if isNoneTy a then defaultFirstNonNone rest
        else get_default_value_from_type a) := by
  refine ⟨fun fs => rfl, fun its => rfl, fun its => rfl, rfl, rfl, rfl, rfl, rfl, rfl,
    fun args => rfl, fun x rest => rfl, rfl, fun fs => rfl, fun its => rfl, fun its => rfl,
    rfl, rfl, rfl, fun its => rfl, fun t => rfl, fun args => rfl, fun a rest => rfl⟩

/-- C9: inserting a value of the wrong type through `add` on an existing
map node does not fail and does change the contents.  The node wrapped
from `{"a": 1}` against `{"a": int}` accepts `add("a", "x")`: the
resolved sub-schema `int` goes through `Schema.ensure`, i.e. a fresh
`Schema(int)` whose isinstance heuristic (schema.py line 22) leaves
`_validate` unset, so the wrap of `"x"` runs a `NoOpValidator` and the
string is stored over the int with no error. -/
theorem c9_add_wrong_type_succeeds_and_mutates :
    wrap_meta_structure 20 (.dict (.ofList [(.str "a", .int 1)]))
        (mkSchema (some (.pdict (.ofList [(.slit "a", .ty .int)]))) Option.none) =
        .ok (.mdict (.ofList [(.str "a", .mint 1)])) ∧
      metaDictAdd (mkSchema (some (.pdict (.ofList [(.slit "a", .ty .int)]))) Option.none)
        (.ofList [(.str "a", .mint 1)]) (.str "a") (.str "x") =
        .ok (.ofList [(.str "a", .mstr "x")]) ∧
      (NEntries.ofList [(.str "a", .mstr "x")]) ≠ .ofList [(.str "a", .mint 1)] := by
  exact ⟨rfl, rfl, by decide⟩

/-- C10 counterexample: wrapping is not total under the falsy empty-map
schema, so "wrapping any value succeeds with no validation" fails.  The
set `{None}` wraps its element to a `MetaNone` node, whose `__hash__`
returns `None` (meta_base.py line 157), and building
`set(container_data)` (meta_core.py line 761) then raises `TypeError` —
for any schema, validation aside. -/
theorem c10_wrap_unhashable_set_raises :
    mkSchema (some (.pdict .nil)) Option.none = ⟨Option.none, false⟩ ∧
      wrap_meta_structure 20 (.set (.ofList [.none]))
          (mkSchema (some (.pdict .nil)) Option.none) =
        .error (.typeError "__hash__ method should return an integer") := by
  exact ⟨rfl, rfl⟩

/-- C10 (amended): a falsy raw schema expression — Python `None`, the
empty explicit map, the integer `0`, the boolean `False` — stores no
schema and leaves the `_validate` flag unset, so the built validator is
the no-op one; wrapping against the empty explicit map `{}` runs no
validation and succeeds for every value whose sets hold only hashable
scalars (for any fuel above the data size, i.e. unconditionally in
Python) — in particular a map with an arbitrary key is accepted
unchanged rather than rejected as a closed-world empty map.  Wrapping is
not total, though: a set member that wraps to an unhashable node
(`None`, or any container) raises `TypeError` whatever the schema (see
the counterexample). -/
theorem c10_falsy_schema_builds_noop_validator :
    mkSchema Option.none Option.none = ⟨Option.none, false⟩ ∧
      mkSchema (some (.pdict .nil)) Option.none = ⟨Option.none, false⟩ ∧
      mkSchema (some (.ilit 0)) Option.none = ⟨Option.none, false⟩ ∧
      mkSchema (some (.blit false)) Option.none = ⟨Option.none, false⟩ ∧
      (∀ (v : PyVal) (f : Nat), sizeV v < f → vSetsHashable v = true →
        ∃ n, wrap_meta_structure f v (mkSchema (some (.pdict .nil)) Option.none) = .ok n) ∧
      wrap_meta_structure 20 (.dict (.ofList [(.str "extra", .int 1)]))
        (mkSchema (some (.pdict .nil)) Option.none) =
        .ok (.mdict (.ofList [(.str "extra", .mint 1)])) := by
  refine ⟨rfl, rfl, rfl, rfl, ?_, rfl⟩
  intro v f hf hsh
  obtain ⟨n, hn, _⟩ := wrap_permissive_ok f v Option.none (Or.inl rfl) hf hsh
  exact ⟨n, hn⟩

/-- C10 witness: wrapping a concrete nested value (containing a set of
hashable scalars) against the empty explicit map succeeds. -/
theorem c10_falsy_schema_witness :
    wrap_meta_structure 9 (.list (.ofList [.int 1, .set (.ofList [.str "b"])]))
      (mkSchema (some (.pdict .nil)) Option.none) =
      .ok (.mlist (.ofList [.mint 1, .mset (.ofList [.mstr "b"])])) := by
  obtain ⟨_n, _h⟩ := c10_falsy_schema_builds_noop_validator.2.2.2.2.1
    (.list (.ofList [.int 1, .set (.ofList [.str "b"])])) 9 (by decide) (by decide)
  rfl

end MetaPy
